import Mathlib

/-!
# Spectrawatt API (`src/api/main.go`): ingestion validation and grouping

A shallow embedding of the decision logic of the handlers of `main.go`:

* `parseRequiredNumber`, `parseOptionalNumber`, `parseTimestamp` and the validation and
  derived-field part of `PostDataHandler`;
* the grouping step of `GetDataHandler`;
* the answer of `GetDeviceDataHandler` to a query result;
* the aggregation pipeline of `GetGroupedDataHandler` and its transformation loop.

Conventions of the embedding.

* A `float64` is its IEEE 754 bit pattern (`Float64.bits`, what `math.Float64bits` returns);
  the comparison `x == 0`, `math.IsNaN`, `math.IsInf` and the product `x * y` are computed on
  the fields of the pattern with natural-number arithmetic.
* Library calls whose result the handlers only pass on (`strconv.ParseFloat`, `time.Parse`,
  `time.Now`) are fields of a `Runtime` value; the theorems hold for every `Runtime`.
  A concrete instance (`goRuntime`) is used to evaluate examples.
* The order in which Go visits a map is an argument (`rangeOrder`) that may be any
  arrangement of the entries.
* The database is a list of readings. What the engine is free to choose in the aggregation
  (the order of equal timestamps, the rounding of `$avg`) is an `Engine` value; the theorems
  hold for every engine whose `$sort` returns its input sorted.
* A Go `string` is a Lean `String`; Go compares strings byte-wise, which on valid UTF-8 is
  the code-point order Lean's `<` on `String` uses.
* An `error` is its message (`err.Error()`), a function returning `(T, error)` is an
  `Except String T`.
-/

set_option maxRecDepth 100000

namespace Spectrawatt

/-! ## float64 -/

/-- A `float64`, given by its 64-bit IEEE 754 pattern: bit 63 is the sign, bits 62..52 the
biased exponent and bits 51..0 the fraction. Only `bits % 2 ^ 64` is ever read. -/
structure Float64 where
  bits : Nat
deriving DecidableEq, Repr

namespace Float64

/-- Sign bit. -/
def sign (x : Float64) : Bool := x.bits / 2 ^ 63 % 2 = 1

/-- Biased exponent, `0 .. 2047`. -/
def expo (x : Float64) : Nat := x.bits / 2 ^ 52 % 2048

/-- Fraction field, `52` bits. -/
def frac (x : Float64) : Nat := x.bits % 2 ^ 52

/-- The pattern with the given sign, biased exponent and fraction. -/
def ofFields (s : Bool) (e f : Nat) : Float64 := ⟨(if s then 2 ^ 63 else 0) + e * 2 ^ 52 + f⟩

/-- Positive zero, the zero value of a Go `float64`. -/
def zero : Float64 := ⟨0⟩

/-- Result of `math.IsNaN`: exponent all ones and a non-zero fraction. -/
def IsNaN (x : Float64) : Bool := x.expo = 2047 ∧ x.frac ≠ 0

/-- Result of `math.IsInf(x, 0)`: exponent all ones and a zero fraction, either sign. -/
def IsInf (x : Float64) : Bool := x.expo = 2047 ∧ x.frac = 0

/-- Result of the Go comparison `x == 0`: true for `+0` and for `-0`. -/
def eqZero (x : Float64) : Bool := x.expo = 0 ∧ x.frac = 0

/-- A quiet NaN (which NaN an invalid operation yields depends on the platform). -/
def quietNaN : Float64 := ofFields false 2047 (2 ^ 51)

/-- Infinity of the given sign. -/
def infinity (s : Bool) : Float64 := ofFields s 2047 0

/-- Number of binary digits of `n` (`0` for `0`), halving at most `fuel` times. -/
def bitLen : Nat → Nat → Nat
  | 0, _ => 0
  | fuel + 1, n => if n = 0 then 0 else bitLen fuel (n / 2) + 1

/-- The `float64` nearest to `num / den * 2 ^ e2` (ties to even, overflow to infinity), with
sign `s`; `den` is positive. This is the rounding IEEE 754 prescribes for `*` and the one
`strconv.ParseFloat` documents. -/
def roundScaled (s : Bool) (num den : Nat) (e2 : Int) : Float64 :=
  if num = 0 then ofFields s 0 0 else
  let ln := bitLen num num
  let ld := bitLen den den
  -- `num / den` lies in `[2 ^ (ln - ld - 1), 2 ^ (ln - ld + 1))`
  let ge : Bool := den * 2 ^ ln ≤ num * 2 ^ ld
  -- floor of the binary logarithm of `num / den`
  let fl : Int := (ln : Int) - (ld : Int) - (if ge then 0 else 1)
  let t : Int := fl + e2 + 1074
  -- weight of the last kept bit is `2 ^ (u - 1074)`: `u = 0` in the subnormal range
  let u : Int := if t < 52 then 0 else t - 52
  let k : Int := e2 + 1074 - u
  -- the significand is `num / den * 2 ^ k`, rounded; a shift past every bit of `num` is cut
  let n' := if 0 ≤ k then num * 2 ^ k.toNat else num
  let d' := if 0 ≤ k then den else den * 2 ^ (min (-k).toNat (ln + 2))
  let q := n' / d'
  let r := n' % d'
  let m := if d' < 2 * r ∨ (2 * r = d' ∧ q % 2 = 1) then q + 1 else q
  let m' := if m = 2 ^ 53 then 2 ^ 52 else m
  let u' := if m = 2 ^ 53 then u + 1 else u
  if m' < 2 ^ 52 then ofFields s 0 m'
  else if 2046 ≤ u'.toNat then infinity s
  else ofFields s (u'.toNat + 1) (m' - 2 ^ 52)

/-- Integer significand `m` and exponent `e` of a finite value `m * 2 ^ (e - 1074)`. -/
def decode (x : Float64) : Nat × Nat :=
  if x.expo = 0 then (x.frac, 0) else (2 ^ 52 + x.frac, x.expo - 1)

/-- The Go product `x * y` of two `float64` values (IEEE 754, round to nearest even). -/
def mul (x y : Float64) : Float64 :=
  let s := xor x.sign y.sign
  if x.IsNaN ∨ y.IsNaN then quietNaN
  else if x.IsInf ∨ y.IsInf then
    if x.eqZero ∨ y.eqZero then quietNaN else infinity s
  else
    roundScaled s ((decode x).1 * (decode y).1) 1 (((decode x).2 : Int) + (decode y).2 - 2148)

/-- The Go sum `x + y` (IEEE 754, round to nearest even). -/
def add (x y : Float64) : Float64 :=
  if x.IsNaN ∨ y.IsNaN then quietNaN
  else if x.IsInf then (if y.IsInf ∧ x.sign ≠ y.sign then quietNaN else infinity x.sign)
  else if y.IsInf then infinity y.sign
  else
    let e := min (decode x).2 (decode y).2
    let a : Int := (if x.sign then -1 else 1) * (((decode x).1 * 2 ^ ((decode x).2 - e) : Nat) : Int)
    let b : Int := (if y.sign then -1 else 1) * (((decode y).1 * 2 ^ ((decode y).2 - e) : Nat) : Int)
    if a + b = 0 then ofFields (x.sign && y.sign) 0 0
    else roundScaled (decide (a + b < 0)) (a + b).natAbs 1 ((e : Int) - 1074)

/-- The Go quotient `x / y` (IEEE 754, round to nearest even). -/
def div (x y : Float64) : Float64 :=
  let s := xor x.sign y.sign
  if x.IsNaN ∨ y.IsNaN then quietNaN
  else if x.IsInf then (if y.IsInf then quietNaN else infinity s)
  else if y.IsInf then ofFields s 0 0
  else if y.eqZero then (if x.eqZero then quietNaN else infinity s)
  else roundScaled s (decode x).1 (decode y).1 (((decode x).2 : Int) - (decode y).2)

/-- Position of a value in the numeric order the store compares doubles by: NaN below
every number, then the numbers by value, `-0` and `+0` at the same place. -/
def key (x : Float64) : Int :=
  if x.IsNaN then -(2 ^ 63) else
  if x.sign then -((x.bits % 2 ^ 63 : Nat) : Int) else ((x.bits % 2 ^ 63 : Nat) : Int)

/-- The two values are the same number in that order: equal patterns, up to the sign of a
zero and the payload of a NaN. -/
def sameNumber (x y : Float64) : Prop := x.key = y.key

end Float64

/-! ## time.Time -/

/-- A `*time.Location` as far as the handlers see it. -/
inductive Location where
  | UTC
  | Local
  | fixed (name : String) (offsetSeconds : Int)
deriving DecidableEq, Repr

/-- A `time.Time`: an instant (nanoseconds since the Unix epoch) shown in a location. -/
structure Time where
  unixNano : Int
  loc : Location
deriving DecidableEq, Repr

/-- The method `t.UTC()`: the same instant with the location set to UTC. -/
def Time.UTC (t : Time) : Time := { t with loc := Location.UTC }

/-! ## strings -/

/-- Result of `unicode.IsSpace`: the characters `strings.TrimSpace` removes. -/
def unicode_IsSpace (c : Char) : Bool :=
  let n := c.toNat
  (9 ≤ n ∧ n ≤ 13) ∨ n = 0x20 ∨ n = 0x85 ∨ n = 0xA0 ∨ n = 0x1680 ∨ (0x2000 ≤ n ∧ n ≤ 0x200A) ∨
    n = 0x2028 ∨ n = 0x2029 ∨ n = 0x202F ∨ n = 0x205F ∨ n = 0x3000

/-- The function `strings.TrimSpace`: the string without leading and trailing white space. -/
def strings_TrimSpace (s : String) : String :=
  ⟨((s.data.dropWhile unicode_IsSpace).reverse.dropWhile unicode_IsSpace).reverse⟩

/-- A string is blank when every character of it is white space (the empty string is). -/
def isBlank (s : String) : Prop := ∀ c ∈ s.data, unicode_IsSpace c = true

instance (s : String) : Decidable (isBlank s) := by
  unfold isBlank
  infer_instance

/-- The text `sub` occurs in `s`. -/
def containsText (s sub : String) : Prop := sub.data <:+: s.data

/-! ## The library calls left open -/

/-- The library results the handlers pass on unchanged. -/
structure Runtime where
  /-- The call `strconv.ParseFloat(s, 64)`: the value when the error is nil, else the message. -/
  ParseFloat : String → Except String Float64
  /-- The call `time.Parse(time.RFC3339, s)`. -/
  timeParse : String → Except String Time
  /-- The call `time.Now()`. -/
  now : Time

/-! ## Data model -/

/-- The struct `EnergyData`; `ID` is the 12-byte object id as a number, `0` before insertion. -/
structure EnergyData where
  ID : Nat
  DeviceID : String
  Timestamp : Time
  Vrms : Float64
  Irms : Float64
  ApparentPower : Float64
  Wh : Float64
deriving DecidableEq, Repr

/-- The struct `energyPayload` after decoding; a `json.Number` is its text, empty when the
field was absent. -/
structure energyPayload where
  DeviceID : String
  Timestamp : String
  Vrms : String
  Irms : String
  ApparentPower : String
  Wh : String
deriving DecidableEq, Repr

/-- What `http.Error(w, message, status)` answers. -/
structure HttpError where
  status : Nat
  message : String
deriving DecidableEq, Repr

deriving instance DecidableEq for Except

/-! ## Parsing helpers (`main.go` lines 47-80) -/

/-- The function `parseRequiredNumber`. -/
def parseRequiredNumber (rt : Runtime) (raw field : String) : Except String Float64 :=
  if raw = "" then
    .error (field ++ " is required")
  else
    match rt.ParseFloat raw with
    | .error err => .error ("invalid " ++ field ++ ": " ++ err)
    | .ok value =>
      if value.IsNaN || value.IsInf then
        .error (field ++ " must be a finite number")
      else
        .ok value

/-- The function `parseOptionalNumber`. -/
def parseOptionalNumber (rt : Runtime) (raw field : String) : Except String Float64 :=
  if raw = "" then
    .ok Float64.zero
  else
    parseRequiredNumber rt raw field

/-- The function `parseTimestamp`. -/
def parseTimestamp (rt : Runtime) (ts : String) : Except String Time :=
  if strings_TrimSpace ts = "" then
    .ok rt.now.UTC
  else
    match rt.timeParse ts with
    | .error err => .error ("invalid timestamp: " ++ err)
    | .ok parsed => .ok parsed.UTC

/-! ## `PostDataHandler` (lines 216-263) -/

/-- The derived-field rule of `PostDataHandler` (lines 246-248). -/
def deriveApparentPower (vrms irms apparentPower : Float64) : Float64 :=
  if apparentPower.eqZero then vrms.mul irms else apparentPower

/-- Answer `http.Error(w, err.Error(), http.StatusBadRequest)` to a failed parse. -/
def badRequest {α : Type} (r : Except String α) : Except HttpError α :=
  match r with
  | .error msg => .error ⟨400, msg⟩
  | .ok v => .ok v

/-- The handler `PostDataHandler` from the decoded payload to the `EnergyData` value it hands
to `InsertOne` (the stored reading), or the error it answers with. -/
def PostDataHandler (rt : Runtime) (payload : energyPayload) : Except HttpError EnergyData := do
  let deviceID := strings_TrimSpace payload.DeviceID
  if deviceID = "" then
    throw ⟨400, "device_id is required"⟩
  let vrms ← badRequest (parseRequiredNumber rt payload.Vrms "vrms")
  let irms ← badRequest (parseRequiredNumber rt payload.Irms "irms")
  let apparentPower ← badRequest (parseOptionalNumber rt payload.ApparentPower "apparent_power")
  let wh ← badRequest (parseOptionalNumber rt payload.Wh "wh")
  let apparentPower := deriveApparentPower vrms irms apparentPower
  let timestamp ← badRequest (parseTimestamp rt payload.Timestamp)
  pure
    { ID := 0
      DeviceID := deviceID
      Timestamp := timestamp
      Vrms := vrms
      Irms := irms
      ApparentPower := apparentPower
      Wh := wh }

/-! ## `GetDataHandler`: grouping by device (lines 325-343) -/

/-- The struct `DeviceDataGroup`. -/
structure DeviceDataGroup where
  DeviceID : String
  Data : List EnergyData
deriving DecidableEq, Repr

/-- A Go `map[string][]EnergyData`: its entries, with pairwise distinct keys. The order of the
entries carries no meaning; iteration visits them in an order of the runtime's choosing. -/
abbrev DeviceMap := List (String × List EnergyData)

/-- The read `deviceMap[k]`: the slice stored under `k`, the nil slice when there is none. -/
def DeviceMap.get : DeviceMap → String → List EnergyData
  | [], _ => []
  | (k', v) :: m, k => if k' = k then v else DeviceMap.get m k

/-- The assignment `deviceMap[k] = v`. -/
def DeviceMap.set : DeviceMap → String → List EnergyData → DeviceMap
  | [], k, v => [(k, v)]
  | (k', v') :: m, k, v => if k' = k then (k, v) :: m else (k', v') :: DeviceMap.set m k v

/-- First loop of the grouping step:
`deviceMap[data.DeviceID] = append(deviceMap[data.DeviceID], data)` for each reading. -/
def buildDeviceMap (results : List EnergyData) : DeviceMap :=
  results.foldl (fun deviceMap data =>
    deviceMap.set data.DeviceID (deviceMap.get data.DeviceID ++ [data])) []

/-- Second loop: one `DeviceDataGroup` appended per map entry, in the order the entries are
visited. -/
def collectGroups (visited : List (String × List EnergyData)) : List DeviceDataGroup :=
  visited.foldl (fun groupedData entry => groupedData ++ [⟨entry.1, entry.2⟩]) []

/-- The call `sort.Slice(x, less)`: the elements of `x` ordered so that none is `less` than
one before it. The library's sort is not stable; it is modelled by insertion sort, and where
the keys are pairwise distinct every such order is this one (`sorted_perm_unique`). -/
def sort_Slice {α : Type} (less : α → α → Prop) [DecidableRel less] (x : List α) : List α :=
  x.insertionSort (fun a b => ¬ less b a)

/-- The grouping step of `GetDataHandler`: the groups it encodes for the readings `results`
the store returned, when the runtime visits the entries of a map `m` in the order
`rangeOrder m`. -/
def GetDataHandler_groups (rangeOrder : DeviceMap → List (String × List EnergyData))
    (results : List EnergyData) : List DeviceDataGroup :=
  sort_Slice (fun a b : DeviceDataGroup => a.DeviceID < b.DeviceID)
    (collectGroups (rangeOrder (buildDeviceMap results)))

/-! ## `GetDeviceDataHandler` (lines 378-412) -/

/-- What a handler writes: the readings it encodes as JSON, or the text of `http.Error`. -/
inductive ResponseBody where
  | text (message : String)
  | readings (data : List EnergyData)
deriving DecidableEq, Repr

/-- The status code and body of a response. -/
structure Response where
  status : Nat
  body : ResponseBody
deriving DecidableEq, Repr

/-- The query of `GetDeviceDataHandler`: the readings of the device, sorted by `sortDesc`
(timestamp descending), at most 100 of them. -/
def findDeviceData (sortDesc : List EnergyData → List EnergyData) (store : List EnergyData)
    (deviceID : String) : List EnergyData :=
  (sortDesc (store.filter (fun r => r.DeviceID = deviceID))).take 100

/-- The handler `GetDeviceDataHandler` from the outcome of its query (`Find` and `cursor.All`:
the readings, or the error) to its response. -/
def GetDeviceDataHandler (queryResult : Except String (List EnergyData)) : Response :=
  match queryResult with
  | .error _ => ⟨500, .text "Database error"⟩
  | .ok deviceData =>
    if deviceData.length = 0 then
      ⟨404, .text "No data found for device"⟩
    else
      ⟨200, .readings deviceData⟩

/-! ## `GetGroupedDataHandler` (lines 426-494) -/

/-- A BSON value as the driver decodes it into a `bson.M`, for the types the pipeline yields. -/
inductive BsonValue where
  | null
  | int32 (n : Int)
  | int64 (n : Int)
  | double (x : Float64)
  | string (s : String)
  | document (d : EnergyData)
deriving DecidableEq, Repr

/-- One row of the aggregation result: the keys the `$group` stage produces. -/
structure AggregateRow where
  _id : BsonValue
  count : BsonValue
  latest : BsonValue
  first : BsonValue
  avg_power : BsonValue
  max_power : BsonValue
  total_wh : BsonValue
deriving DecidableEq, Repr

/-- What the database engine is free to choose: the order of readings with equal timestamps
in the `$sort` stage, and how `$avg` sums and rounds. -/
structure Engine where
  /-- The stage `$sort: {timestamp: -1}`. -/
  sortByTimestampDesc : List EnergyData → List EnergyData
  /-- The accumulator `$avg` over doubles. -/
  avg : List Float64 → Float64

/-- The accumulator `$sum: 1`: the number of documents of the group, as the 32-bit integer the
handler reads it back as. (A count of `2 ^ 31` or more, which the engine would widen to a
64-bit integer, is outside the model.) -/
def sumOnes (docs : List EnergyData) : BsonValue := .int32 docs.length

/-- The accumulator `$first: "$$ROOT"`. -/
def firstRoot : List EnergyData → BsonValue
  | [] => .null
  | d :: _ => .document d

/-- The accumulator `$last: "$$ROOT"`. -/
def lastRoot : List EnergyData → BsonValue
  | [] => .null
  | [d] => .document d
  | _ :: d :: ds => lastRoot (d :: ds)

/-- The greatest of `x` and the values `ys`, in the order of `Float64.key`. -/
def maxFrom (x : Float64) (ys : List Float64) : Float64 :=
  ys.foldl (fun acc y => if acc.key < y.key then y else acc) x

/-- The accumulator `$max` over doubles. -/
def maxDouble : List Float64 → BsonValue
  | [] => .null
  | x :: xs => .double (maxFrom x xs)

/-- The row the stage `$group` yields for the device id `k`: its accumulators fed with the
documents of that device in the order of `docs`. -/
def groupRow (engine : Engine) (docs : List EnergyData) (k : String) : AggregateRow :=
  { _id := .string k
    count := sumOnes (docs.filter (fun d => d.DeviceID = k))
    latest := firstRoot (docs.filter (fun d => d.DeviceID = k))
    first := lastRoot (docs.filter (fun d => d.DeviceID = k))
    avg_power := .double (engine.avg ((docs.filter (fun d => d.DeviceID = k)).map (fun d => d.ApparentPower)))
    max_power := maxDouble ((docs.filter (fun d => d.DeviceID = k)).map (fun d => d.ApparentPower))
    total_wh := maxDouble ((docs.filter (fun d => d.DeviceID = k)).map (fun d => d.Wh)) }

/-- The stage `$group` with `_id: "$device_id"`: one row per distinct device id of `docs`. -/
def groupStage (engine : Engine) (docs : List EnergyData) : List AggregateRow :=
  (docs.map (fun d => d.DeviceID)).dedup.map (groupRow engine docs)

/-- The string a row is sorted by in the stage `$sort: {_id: 1}`. -/
def AggregateRow.idString (row : AggregateRow) : String :=
  match row._id with
  | .string s => s
  | _ => ""

/-- The stage `$sort: {_id: 1}`; the ids of the rows are pairwise distinct strings. -/
def sortById (rows : List AggregateRow) : List AggregateRow :=
  rows.insertionSort (fun a b => ¬ b.idString < a.idString)

/-- The aggregation pipeline of `GetGroupedDataHandler` over the stored readings: `$sort` by
timestamp descending, `$group` by device id, `$sort` by `_id` ascending. -/
def aggregate (engine : Engine) (store : List EnergyData) : List AggregateRow :=
  sortById (groupStage engine (engine.sortByTimestampDesc store))

/-- The struct `DeviceGroup`. -/
structure DeviceGroup where
  DeviceID : String
  RecordCount : Int
  LatestReading : EnergyData
  FirstReading : EnergyData
  AveragePower : Float64
  MaxPower : Float64
  TotalWh : Float64
deriving DecidableEq, Repr

/-- The zero value of `EnergyData`. -/
def EnergyData.zeroValue : EnergyData :=
  ⟨0, "", ⟨0, Location.UTC⟩, Float64.zero, Float64.zero, Float64.zero, Float64.zero⟩

/-- The round trip `bson.Marshal` then `bson.Unmarshal` into an `EnergyData`; both errors are
dropped, so a value that is no document leaves the zero value. -/
def decodeReading : BsonValue → EnergyData
  | .document d => d
  | _ => EnergyData.zeroValue

/-- The type assertion `v.(string)`; `none` stands for the panic. -/
def assertString : BsonValue → Option String
  | .string s => some s
  | _ => none

/-- The type assertion `v.(int32)`. -/
def assertInt32 : BsonValue → Option Int
  | .int32 n => some n
  | _ => none

/-- The type assertion `v.(float64)`. -/
def assertFloat64 : BsonValue → Option Float64
  | .double x => some x
  | _ => none

/-- Body of the transformation loop (lines 465-486): one row to one `DeviceGroup`. -/
def toDeviceGroup (result : AggregateRow) : Option DeviceGroup :=
  (assertString result._id).bind fun deviceID =>
  (assertInt32 result.count).bind fun count =>
  (assertFloat64 result.avg_power).bind fun avgPower =>
  (assertFloat64 result.max_power).bind fun maxPower =>
  (assertFloat64 result.total_wh).bind fun totalWh =>
  some
    { DeviceID := deviceID
      RecordCount := count
      LatestReading := decodeReading result.latest
      FirstReading := decodeReading result.first
      AveragePower := avgPower
      MaxPower := maxPower
      TotalWh := totalWh }

/-- The handler `GetGroupedDataHandler` on a store whose aggregation succeeds: the device
groups it encodes (`none` when a type assertion panics). -/
def GetGroupedDataHandler (engine : Engine) (store : List EnergyData) : Option (List DeviceGroup) :=
  (aggregate engine store).foldl
    (fun deviceGroups result =>
      deviceGroups.bind fun groups => (toDeviceGroup result).map fun group => groups ++ [group])
    (some [])

/-- The `DeviceGroup` the loop builds from the row of device `k`, when `docs` is the sorted
input of the `$group` stage. -/
def summaryOf (engine : Engine) (docs : List EnergyData) (k : String) : DeviceGroup :=
  { DeviceID := k
    RecordCount := (docs.filter (fun d => d.DeviceID = k)).length
    LatestReading := decodeReading (firstRoot (docs.filter (fun d => d.DeviceID = k)))
    FirstReading := decodeReading (lastRoot (docs.filter (fun d => d.DeviceID = k)))
    AveragePower := engine.avg ((docs.filter (fun d => d.DeviceID = k)).map (fun d => d.ApparentPower))
    MaxPower :=
      match (docs.filter (fun d => d.DeviceID = k)).map (fun d => d.ApparentPower) with
      | [] => Float64.zero
      | x :: xs => maxFrom x xs
    TotalWh :=
      match (docs.filter (fun d => d.DeviceID = k)).map (fun d => d.Wh) with
      | [] => Float64.zero
      | x :: xs => maxFrom x xs }

/-- An example reading: object id, device, Unix second of the timestamp, `wh`; the electrical
values are `230.0` V, `0.5` A and `115.0` VA. -/
def sampleReading (id : Nat) (device : String) (second : Int) (wh : Float64) : EnergyData :=
  { ID := id
    DeviceID := device
    Timestamp := ⟨second * 1000000000, Location.UTC⟩
    Vrms := ⟨0x406CC00000000000⟩
    Irms := ⟨0x3FE0000000000000⟩
    ApparentPower := ⟨0x405CC00000000000⟩
    Wh := wh }

/-! ## A concrete runtime, for evaluating examples

The theorems below hold for every `Runtime`. The instance `goRuntime` follows the documented
behaviour of the library calls on the inputs the examples use: decimal literals and the
special values for `strconv.ParseFloat` (hexadecimal literals and digit-separating
underscores, which the library also accepts, are answered with a syntax error here), and
`YYYY-MM-DDTHH:MM:SS[.fraction](Z|+HH:MM|-HH:MM)` for `time.Parse`. -/

/-- ASCII lower case of a character. -/
def lowerAscii (c : Char) : Char :=
  if 65 ≤ c.toNat ∧ c.toNat ≤ 90 then Char.ofNat (c.toNat + 32) else c

/-- Decimal digit test. -/
def isDigit (c : Char) : Bool := 48 ≤ c.toNat ∧ c.toNat ≤ 57

/-- Value of a run of decimal digits. -/
def digitsValue (ds : List Char) : Nat := ds.foldl (fun a c => 10 * a + (c.toNat - 48)) 0

/-- Split an optional sign off: (negative, signed, rest). -/
def readSign : List Char → Bool × Bool × List Char
  | '+' :: r => (false, true, r)
  | '-' :: r => (true, true, r)
  | r => (false, false, r)

/-- The special values `strconv.ParseFloat` recognises, ignoring case: `inf` and `infinity`
with an optional sign, and `nan`. -/
def parseSpecial (cs : List Char) : Option Float64 :=
  let (neg, signed, rest) := readSign cs
  let low := rest.map lowerAscii
  if low = "inf".data ∨ low = "infinity".data then some (Float64.infinity neg)
  else if signed = false ∧ low = "nan".data then some ⟨0x7FF8000000000001⟩
  else none

/-- Decimal exponent digits, accumulated as the library does (no longer once past 10000). -/
def exponentValue (ds : List Char) : Nat :=
  ds.foldl (fun e c => if e < 10000 then 10 * e + (c.toNat - 48) else e) 0

/-- A decimal literal `[+-]digits[.digits][(e|E)[+-]digits]` with at least one digit before
the exponent: (negative, digits as a number, power of ten). -/
def parseDecimal (cs : List Char) : Option (Bool × Nat × Int) :=
  let (neg, _, r0) := readSign cs
  let intPart := r0.takeWhile isDigit
  let r1 := r0.dropWhile isDigit
  let (fracPart, r2) :=
    match r1 with
    | '.' :: r => (r.takeWhile isDigit, r.dropWhile isDigit)
    | _ => ([], r1)
  if intPart.isEmpty ∧ fracPart.isEmpty then none else
  let mant := digitsValue (intPart ++ fracPart)
  match r2 with
  | [] => some (neg, mant, -(fracPart.length : Int))
  | c :: r3 =>
    if c = 'e' ∨ c = 'E' then
      let (eneg, _, r4) := readSign r3
      if r4.isEmpty ∨ r4.all isDigit = false then none else
      let e : Int := exponentValue r4
      some (neg, mant, (if eneg then -e else e) - (fracPart.length : Int))
    else none

/-- Model of `strconv.ParseFloat(s, 64)` on decimal literals and special values: the nearest
`float64`, a range error when the literal overflows, a syntax error for any other text. -/
def ParseFloat (s : String) : Except String Float64 :=
  match parseSpecial s.data with
  | some v => .ok v
  | none =>
    match parseDecimal s.data with
    | none => .error ("strconv.ParseFloat: parsing \"" ++ s ++ "\": invalid syntax")
    | some (neg, mant, e10) =>
      let v :=
        if 0 ≤ e10 then Float64.roundScaled neg (mant * 10 ^ e10.toNat) 1 0
        else Float64.roundScaled neg mant (10 ^ (-e10).toNat) 0
      if v.IsInf then .error ("strconv.ParseFloat: parsing \"" ++ s ++ "\": value out of range")
      else .ok v

/-- Days from 1970-01-01 to the given civil date (proleptic Gregorian calendar). -/
def daysFromCivil (y m d : Nat) : Int :=
  let y' : Int := if m ≤ 2 then (y : Int) - 1 else y
  let m' : Int := if m ≤ 2 then (m : Int) + 9 else (m : Int) - 3
  365 * y' + Int.fdiv y' 4 - Int.fdiv y' 100 + Int.fdiv y' 400 + (153 * m' + 2) / 5 + (d : Int) - 1
    - 719468

/-- Number of days of a month. -/
def daysIn (y m : Nat) : Nat :=
  if m = 2 then (if y % 4 = 0 ∧ (y % 100 ≠ 0 ∨ y % 400 = 0) then 29 else 28)
  else if m = 4 ∨ m = 6 ∨ m = 9 ∨ m = 11 then 30 else 31

/-- Exactly `n` leading digits as a number, and the rest. -/
def readFixed (n : Nat) (cs : List Char) : Option (Nat × List Char) :=
  if (cs.take n).length = n ∧ (cs.take n).all isDigit then some (digitsValue (cs.take n), cs.drop n)
  else none

/-- A literal character. -/
def readChar (c : Char) : List Char → Option (List Char)
  | d :: r => if d = c then some r else none
  | [] => none

/-- Optional fraction of a second `.digits`, in nanoseconds (digits past the ninth dropped). -/
def readFraction : List Char → Nat × List Char
  | '.' :: r =>
    let ds := r.takeWhile isDigit
    if ds.isEmpty then (0, '.' :: r)
    else (digitsValue ((ds ++ List.replicate 9 '0').take 9), r.dropWhile isDigit)
  | r => (0, r)

/-- Zone designator: `Z`, or a signed `HH:MM` offset; the location and its offset in seconds. -/
def readZone (cs : List Char) : Option (Location × Int) :=
  match cs with
  | ['Z'] => some (Location.UTC, 0)
  | s :: r =>
    if s = '+' ∨ s = '-' then
      (readFixed 2 r).bind fun p1 =>
      (readChar ':' p1.2).bind fun r1 =>
      (readFixed 2 r1).bind fun p2 =>
      if p2.2 ≠ [] ∨ 24 ≤ p1.1 ∨ 60 ≤ p2.1 then none
      else
        some (Location.fixed "" ((if s = '-' then -1 else 1) * ((p1.1 * 3600 + p2.1 * 60 : Nat) : Int)),
          (if s = '-' then -1 else 1) * ((p1.1 * 3600 + p2.1 * 60 : Nat) : Int))
    else none
  | [] => none

/-- Leading `YYYY-MM-DD`: year, month, day and the rest. -/
def readDate (cs : List Char) : Option (Nat × Nat × Nat × List Char) :=
  (readFixed 4 cs).bind fun p1 =>
  (readChar '-' p1.2).bind fun r1 =>
  (readFixed 2 r1).bind fun p2 =>
  (readChar '-' p2.2).bind fun r2 =>
  (readFixed 2 r2).bind fun p3 =>
  if p2.1 = 0 ∨ 12 < p2.1 ∨ p3.1 = 0 ∨ daysIn p1.1 p2.1 < p3.1 then none
  else some (p1.1, p2.1, p3.1, p3.2)

/-- Leading `HH:MM:SS[.fraction]`: second of the day, nanoseconds and the rest. -/
def readClock (cs : List Char) : Option (Nat × Nat × List Char) :=
  (readFixed 2 cs).bind fun p1 =>
  (readChar ':' p1.2).bind fun r1 =>
  (readFixed 2 r1).bind fun p2 =>
  (readChar ':' p2.2).bind fun r2 =>
  (readFixed 2 r2).bind fun p3 =>
  if 24 ≤ p1.1 ∨ 60 ≤ p2.1 ∨ 60 ≤ p3.1 then none
  else some (p1.1 * 3600 + p2.1 * 60 + p3.1, (readFraction p3.2).1, (readFraction p3.2).2)

/-- An RFC 3339 date-time as an instant in the location its zone designator names. -/
def readDateTime (cs : List Char) : Option Time :=
  (readDate cs).bind fun d =>
  (readChar 'T' d.2.2.2).bind fun r =>
  (readClock r).bind fun c =>
  (readZone c.2.2).bind fun z =>
  some ⟨((daysFromCivil d.1 d.2.1 d.2.2.1 * 86400 + (c.1 : Int) - z.2) * 1000000000 + (c.2.1 : Int)),
    z.1⟩

/-- Model of `time.Parse(time.RFC3339, s)` on well-formed RFC 3339 date-times. -/
def timeParse (s : String) : Except String Time :=
  match readDateTime s.data with
  | some t => .ok t
  | none => .error ("parsing time \"" ++ s ++ "\" as \"2006-01-02T15:04:05Z07:00\": cannot parse")

/-- The example runtime, with the clock reading `now`. -/
def goRuntime (now : Time) : Runtime :=
  { ParseFloat := ParseFloat, timeParse := timeParse, now := now }

/-- An engine for the examples: a stable sort by timestamp descending, and the mean computed
by adding the values in order and dividing by their number. -/
def sampleEngine : Engine :=
  { sortByTimestampDesc := fun docs =>
      docs.insertionSort (fun a b => b.Timestamp.unixNano ≤ a.Timestamp.unixNano)
    avg := fun xs =>
      (xs.foldl Float64.add Float64.zero).div (Float64.roundScaled false xs.length 1 0) }

/-! ## Invariant of the grouping loop and the orders the sorts use -/

/-- What the first loop has established once the readings `pre` are processed. -/
structure GroupedUpTo (m : DeviceMap) (pre : List EnergyData) : Prop where
  nodup : (m.map Prod.fst).Nodup
  get_eq : ∀ k, DeviceMap.get m k = pre.filter (fun r => r.DeviceID = k)
  mem_keys : ∀ k, k ∈ m.map Prod.fst ↔ ∃ r ∈ pre, r.DeviceID = k
  perm : (m.flatMap Prod.snd).Perm pre

instance groupOrder_total :
    IsTotal DeviceDataGroup (fun a b => ¬ b.DeviceID < a.DeviceID) :=
  ⟨fun a b => by
    simp only [not_lt]
    exact le_total _ _⟩

instance groupOrder_trans :
    IsTrans DeviceDataGroup (fun a b => ¬ b.DeviceID < a.DeviceID) :=
  ⟨fun a b c h₁ h₂ => by
    simp only [not_lt] at *
    exact le_trans h₁ h₂⟩

instance rowOrder_total : IsTotal AggregateRow (fun a b => ¬ b.idString < a.idString) :=
  ⟨fun a b => by
    simp only [not_lt]
    exact le_total _ _⟩

instance rowOrder_trans : IsTrans AggregateRow (fun a b => ¬ b.idString < a.idString) :=
  ⟨fun a b c h₁ h₂ => by
    simp only [not_lt] at *
    exact le_trans h₁ h₂⟩

instance timestampOrder_total :
    IsTotal EnergyData (fun a b => b.Timestamp.unixNano ≤ a.Timestamp.unixNano) :=
  ⟨fun _ _ => le_total _ _⟩

instance timestampOrder_trans :
    IsTrans EnergyData (fun a b => b.Timestamp.unixNano ≤ a.Timestamp.unixNano) :=
  ⟨fun _ _ _ h₁ h₂ => le_trans h₂ h₁⟩

/-! ## Lemmas on the helpers -/

theorem all_space_of_dropWhile_eq_nil {l : List Char}
    (h : ((l.dropWhile unicode_IsSpace).reverse.dropWhile unicode_IsSpace) = []) :
    ∀ c ∈ l, unicode_IsSpace c = true := by
  rw [List.dropWhile_eq_nil_iff] at h
  intro c hc
  rw [← List.takeWhile_append_dropWhile unicode_IsSpace l] at hc
  rcases List.mem_append.mp hc with h1 | h2
  · exact List.mem_takeWhile_imp h1
  · exact h c (List.mem_reverse.mpr h2)

theorem strings_TrimSpace_eq_empty_iff (s : String) :
    strings_TrimSpace s = "" ↔ isBlank s := by
  constructor
  · intro h
    have h1 : (strings_TrimSpace s).data = [] := by rw [h]
    simp only [strings_TrimSpace, List.reverse_eq_nil_iff] at h1
    exact all_space_of_dropWhile_eq_nil h1
  · intro h
    have h1 : s.data.dropWhile unicode_IsSpace = [] := List.dropWhile_eq_nil_iff.mpr h
    simp only [strings_TrimSpace, h1]
    rfl

theorem containsText_append_left (a b : String) : containsText (a ++ b) a := by
  unfold containsText
  rw [String.data_append]
  exact (List.prefix_append _ _).isInfix

theorem containsText_append_right (a b : String) : containsText (a ++ b) b := by
  unfold containsText
  rw [String.data_append]
  exact (List.suffix_append _ _).isInfix

theorem containsText_append_of_left {a b sub : String} (h : containsText a sub) :
    containsText (a ++ b) sub := by
  unfold containsText at *
  rw [String.data_append]
  exact h.trans (List.prefix_append _ _).isInfix

/-! ## `parseRequiredNumber`, `parseOptionalNumber` -/

/-- C6. On a non-empty text `parseRequiredNumber` returns either a finite number (neither NaN
nor an infinity, and the one the library parsed) with no error, or an error whose message
contains the field name. A text the library parses to NaN or to an infinity is rejected with
`<field> must be a finite number`, a text the library rejects with `invalid <field>: ...`. -/
theorem parseRequiredNumber_finite_or_field_error (rt : Runtime) (raw field : String)
    (hraw : raw ≠ "") :
    ((∃ v, parseRequiredNumber rt raw field = .ok v ∧ rt.ParseFloat raw = .ok v ∧
          v.IsNaN = false ∧ v.IsInf = false) ∨
      (∃ msg, parseRequiredNumber rt raw field = .error msg ∧ containsText msg field)) ∧
    (∀ v, rt.ParseFloat raw = .ok v → (v.IsNaN = true ∨ v.IsInf = true) →
      parseRequiredNumber rt raw field = .error (field ++ " must be a finite number")) ∧
    (∀ err, rt.ParseFloat raw = .error err →
      parseRequiredNumber rt raw field = .error ("invalid " ++ field ++ ": " ++ err)) := by
  refine ⟨?_, ?_, ?_⟩
  · cases hp : rt.ParseFloat raw with
    | error err =>
      right
      refine ⟨"invalid " ++ field ++ ": " ++ err, by simp [parseRequiredNumber, hraw, hp], ?_⟩
      exact containsText_append_of_left (containsText_append_of_left (containsText_append_right _ _))
    | ok v =>
      by_cases hfin : (v.IsNaN || v.IsInf) = true
      · right
        refine ⟨field ++ " must be a finite number", by simp [parseRequiredNumber, hraw, hp, hfin], ?_⟩
        exact containsText_append_left _ _
      · left
        have hfin' : (v.IsNaN || v.IsInf) = false := by simpa using hfin
        refine ⟨v, by simp [parseRequiredNumber, hraw, hp, hfin'], rfl, ?_, ?_⟩
        · cases h : v.IsNaN <;> simp_all
        · cases h : v.IsInf <;> simp_all
  · intro v hp hv
    have hfin : (v.IsNaN || v.IsInf) = true := by
      rcases hv with h | h <;> simp [h]
    simp [parseRequiredNumber, hraw, hp, hfin]
  · intro err hp
    simp [parseRequiredNumber, hraw, hp]

/-- C6, examples with the library model: `NaN`, `-Inf` and `abc` are rejected naming the
field, `12.5` is returned. -/
theorem parseRequiredNumber_finite_or_field_error_witness :
    parseRequiredNumber (goRuntime ⟨0, Location.UTC⟩) "NaN" "vrms"
        = .error "vrms must be a finite number" ∧
      parseRequiredNumber (goRuntime ⟨0, Location.UTC⟩) "-Inf" "irms"
        = .error "irms must be a finite number" ∧
      parseRequiredNumber (goRuntime ⟨0, Location.UTC⟩) "abc" "irms"
        = .error "invalid irms: strconv.ParseFloat: parsing \"abc\": invalid syntax" ∧
      parseRequiredNumber (goRuntime ⟨0, Location.UTC⟩) "12.5" "wh" = .ok ⟨0x4029000000000000⟩ :=
  ⟨(parseRequiredNumber_finite_or_field_error (goRuntime ⟨0, Location.UTC⟩) "NaN" "vrms"
      (by decide)).2.1 ⟨0x7FF8000000000001⟩ (by decide) (by decide),
    (parseRequiredNumber_finite_or_field_error (goRuntime ⟨0, Location.UTC⟩) "-Inf" "irms"
      (by decide)).2.1 (Float64.infinity true) (by decide) (by decide),
    (parseRequiredNumber_finite_or_field_error (goRuntime ⟨0, Location.UTC⟩) "abc" "irms"
      (by decide)).2.2 _ (by decide),
    by decide⟩

/-- The steps of `PostDataHandler` once the device id is not blank and each parse is known. -/
theorem PostDataHandler_eq_ok (rt : Runtime) (payload : energyPayload)
    (vrms irms apparentPower wh : Float64) (timestamp : Time)
    (hdev : strings_TrimSpace payload.DeviceID ≠ "")
    (hvrms : parseRequiredNumber rt payload.Vrms "vrms" = .ok vrms)
    (hirms : parseRequiredNumber rt payload.Irms "irms" = .ok irms)
    (hap : parseOptionalNumber rt payload.ApparentPower "apparent_power" = .ok apparentPower)
    (hwh : parseOptionalNumber rt payload.Wh "wh" = .ok wh)
    (hts : parseTimestamp rt payload.Timestamp = .ok timestamp) :
    PostDataHandler rt payload = .ok
      { ID := 0
        DeviceID := strings_TrimSpace payload.DeviceID
        Timestamp := timestamp
        Vrms := vrms
        Irms := irms
        ApparentPower := deriveApparentPower vrms irms apparentPower
        Wh := wh } := by
  simp only [PostDataHandler, hdev, hvrms, hirms, hap, hwh, hts, badRequest]
  rfl

/-- A failed parse is answered with status 400 and never yields a reading. -/
theorem badRequest_error {α : Type} (msg : String) :
    badRequest (.error msg : Except String α) = .error ⟨400, msg⟩ := rfl

/-- A blank device id is answered with `device_id is required` before anything else is read. -/
theorem PostDataHandler_blank_device (rt : Runtime) (payload : energyPayload)
    (h : strings_TrimSpace payload.DeviceID = "") :
    PostDataHandler rt payload = .error ⟨400, "device_id is required"⟩ := by
  simp only [PostDataHandler, h]
  rfl

/-- A reading comes out of `PostDataHandler` only when every step succeeded. -/
theorem PostDataHandler_ok_inv (rt : Runtime) (payload : energyPayload) (data : EnergyData)
    (h : PostDataHandler rt payload = .ok data) :
    strings_TrimSpace payload.DeviceID ≠ "" ∧
    ∃ vrms irms apparentPower wh timestamp,
      parseRequiredNumber rt payload.Vrms "vrms" = .ok vrms ∧
      parseRequiredNumber rt payload.Irms "irms" = .ok irms ∧
      parseOptionalNumber rt payload.ApparentPower "apparent_power" = .ok apparentPower ∧
      parseOptionalNumber rt payload.Wh "wh" = .ok wh ∧
      parseTimestamp rt payload.Timestamp = .ok timestamp ∧
      data =
        { ID := 0
          DeviceID := strings_TrimSpace payload.DeviceID
          Timestamp := timestamp
          Vrms := vrms
          Irms := irms
          ApparentPower := deriveApparentPower vrms irms apparentPower
          Wh := wh } := by
  by_cases hdev : strings_TrimSpace payload.DeviceID = ""
  · rw [PostDataHandler_blank_device rt payload hdev] at h
    cases h
  refine ⟨hdev, ?_⟩
  cases hvrms : parseRequiredNumber rt payload.Vrms "vrms" with
  | error e =>
    simp only [PostDataHandler, hdev, hvrms, badRequest] at h
    cases h
  | ok vrms =>
  cases hirms : parseRequiredNumber rt payload.Irms "irms" with
  | error e =>
    simp only [PostDataHandler, hdev, hvrms, hirms, badRequest] at h
    cases h
  | ok irms =>
  cases hap : parseOptionalNumber rt payload.ApparentPower "apparent_power" with
  | error e =>
    simp only [PostDataHandler, hdev, hvrms, hirms, hap, badRequest] at h
    cases h
  | ok apparentPower =>
  cases hwh : parseOptionalNumber rt payload.Wh "wh" with
  | error e =>
    simp only [PostDataHandler, hdev, hvrms, hirms, hap, hwh, badRequest] at h
    cases h
  | ok wh =>
  cases hts : parseTimestamp rt payload.Timestamp with
  | error e =>
    simp only [PostDataHandler, hdev, hvrms, hirms, hap, hwh, hts, badRequest] at h
    cases h
  | ok timestamp =>
  refine ⟨vrms, irms, apparentPower, wh, timestamp, rfl, rfl, rfl, rfl, rfl, ?_⟩
  rw [PostDataHandler_eq_ok rt payload vrms irms apparentPower wh timestamp hdev hvrms hirms hap
    hwh hts] at h
  cases h
  rfl

/-- A payload whose `vrms` or `irms` is absent is answered with status 400. -/
theorem PostDataHandler_missing_required (rt : Runtime) (payload : energyPayload)
    (h : payload.Vrms = "" ∨ payload.Irms = "") :
    ∃ msg, PostDataHandler rt payload = .error ⟨400, msg⟩ := by
  by_cases hdev : strings_TrimSpace payload.DeviceID = ""
  · exact ⟨_, PostDataHandler_blank_device rt payload hdev⟩
  cases hvrms : parseRequiredNumber rt payload.Vrms "vrms" with
  | error e =>
    exact ⟨e, by simp only [PostDataHandler, hdev, hvrms, badRequest]; rfl⟩
  | ok vrms =>
    rcases h with h | h
    · simp [parseRequiredNumber, h] at hvrms
    · have hirms : parseRequiredNumber rt payload.Irms "irms" = .error "irms is required" := by
        simp [parseRequiredNumber, h]
      exact ⟨_, by simp only [PostDataHandler, hdev, hvrms, hirms, badRequest]; rfl⟩

/-! ## Claims on the ingestion pipeline -/

/-- C4. For a payload that passes validation with the values `vrms`, `irms`, `apparentPower`,
`wh`, `timestamp`, the reading handed to the store has `apparent_power = vrms * irms` when
the validated `apparent_power` compares equal to zero (in particular when it was omitted) and
the validated value unchanged otherwise; its `vrms`, `irms`, `wh`, `device_id` and `timestamp`
are the validated values. -/
theorem PostDataHandler_derived_fields (rt : Runtime) (payload : energyPayload)
    (vrms irms apparentPower wh : Float64) (timestamp : Time)
    (hdev : strings_TrimSpace payload.DeviceID ≠ "")
    (hvrms : parseRequiredNumber rt payload.Vrms "vrms" = .ok vrms)
    (hirms : parseRequiredNumber rt payload.Irms "irms" = .ok irms)
    (hap : parseOptionalNumber rt payload.ApparentPower "apparent_power" = .ok apparentPower)
    (hwh : parseOptionalNumber rt payload.Wh "wh" = .ok wh)
    (hts : parseTimestamp rt payload.Timestamp = .ok timestamp) :
    ∃ data, PostDataHandler rt payload = .ok data ∧
      (apparentPower.eqZero = true → data.ApparentPower = vrms.mul irms) ∧
      (apparentPower.eqZero = false → data.ApparentPower = apparentPower) ∧
      (payload.ApparentPower = "" → data.ApparentPower = vrms.mul irms) ∧
      data.Vrms = vrms ∧ data.Irms = irms ∧ data.Wh = wh ∧
      data.DeviceID = strings_TrimSpace payload.DeviceID ∧ data.Timestamp = timestamp := by
  refine ⟨_, PostDataHandler_eq_ok rt payload vrms irms apparentPower wh timestamp hdev hvrms
    hirms hap hwh hts, ?_, ?_, ?_, rfl, rfl, rfl, rfl, rfl⟩
  · intro hz
    simp [deriveApparentPower, hz]
  · intro hz
    simp [deriveApparentPower, hz]
  · intro hempty
    have hzero : apparentPower = Float64.zero := by
      simp [parseOptionalNumber, hempty] at hap
      exact hap.symm
    subst hzero
    simp only [deriveApparentPower]
    rfl

/-- C4, the two examples of the specification and one more: `vrms = 230.0`, `irms = 0.5` and
no `apparent_power` give `apparent_power = 115.0` and `wh = 0`; `vrms = 120`, `irms = 1.0`,
`apparent_power = 90` give `apparent_power = 90`; `apparent_power` supplied as `0` is derived
like an omitted one. -/
theorem PostDataHandler_derived_fields_witness :
    (∃ data, PostDataHandler (goRuntime ⟨0, Location.Local⟩) ⟨"esp-1", "", "230.0", "0.5", "", ""⟩
        = .ok data ∧ data.ApparentPower = ⟨0x405CC00000000000⟩ ∧ data.Wh = Float64.zero) ∧
    (∃ data, PostDataHandler (goRuntime ⟨0, Location.Local⟩) ⟨" esp-2 ", "", "120", "1.0", "90", ""⟩
        = .ok data ∧ data.ApparentPower = ⟨0x4056800000000000⟩) ∧
    (∃ data, PostDataHandler (goRuntime ⟨0, Location.Local⟩) ⟨"esp-1", "", "230.0", "0.5", "0", "7"⟩
        = .ok data ∧ data.ApparentPower = ⟨0x405CC00000000000⟩ ∧
          data.Wh = ⟨0x401C000000000000⟩) := by
  refine ⟨?_, ?_, ?_⟩
  · obtain ⟨data, h, -, -, hderived, -, -, hwh, -, -⟩ :=
      PostDataHandler_derived_fields (goRuntime ⟨0, Location.Local⟩)
        ⟨"esp-1", "", "230.0", "0.5", "", ""⟩ ⟨0x406CC00000000000⟩ ⟨0x3FE0000000000000⟩
        Float64.zero Float64.zero ⟨0, Location.UTC⟩
        (by decide) (by decide) (by decide) (by decide) (by decide) (by decide)
    refine ⟨data, h, ?_, hwh⟩
    rw [hderived rfl]
    decide
  · obtain ⟨data, h, -, hkept, -⟩ :=
      PostDataHandler_derived_fields (goRuntime ⟨0, Location.Local⟩)
        ⟨" esp-2 ", "", "120", "1.0", "90", ""⟩ ⟨0x405E000000000000⟩ ⟨0x3FF0000000000000⟩
        ⟨0x4056800000000000⟩ Float64.zero ⟨0, Location.UTC⟩
        (by decide) (by decide) (by decide) (by decide) (by decide) (by decide)
    exact ⟨data, h, hkept (by decide)⟩
  · obtain ⟨data, h, hzero, -, -, -, -, hwh, -, -⟩ :=
      PostDataHandler_derived_fields (goRuntime ⟨0, Location.Local⟩)
        ⟨"esp-1", "", "230.0", "0.5", "0", "7"⟩ ⟨0x406CC00000000000⟩ ⟨0x3FE0000000000000⟩
        Float64.zero ⟨0x401C000000000000⟩ ⟨0, Location.UTC⟩
        (by decide) (by decide) (by decide) (by decide) (by decide) (by decide)
    refine ⟨data, h, ?_, hwh⟩
    rw [hzero (by decide)]
    decide

/-- C5. A payload whose `device_id` is empty or consists only of white space is answered with
the error `device_id is required`, whatever its other fields hold; and every reading that
passes validation carries the input `device_id` with the surrounding white space trimmed,
which is not empty. -/
theorem PostDataHandler_device_id (rt : Runtime) (payload : energyPayload) :
    (isBlank payload.DeviceID →
      PostDataHandler rt payload = .error ⟨400, "device_id is required"⟩) ∧
    (∀ data, PostDataHandler rt payload = .ok data →
      data.DeviceID = strings_TrimSpace payload.DeviceID ∧ data.DeviceID ≠ "" ∧
        ¬ isBlank payload.DeviceID) := by
  constructor
  · intro hblank
    exact PostDataHandler_blank_device rt payload ((strings_TrimSpace_eq_empty_iff _).mpr hblank)
  · intro data h
    obtain ⟨hdev, _, _, _, _, _, _, _, _, _, _, hdata⟩ := PostDataHandler_ok_inv rt payload data h
    subst hdata
    exact ⟨rfl, hdev, fun hb => hdev ((strings_TrimSpace_eq_empty_iff _).mpr hb)⟩

/-- C5, examples: the device id ` esp-2 ` is stored as `esp-2`; a payload whose device id is
a blank and a tab is refused although its other fields are not even numbers. -/
theorem PostDataHandler_device_id_witness :
    PostDataHandler (goRuntime ⟨0, Location.Local⟩) ⟨" esp-2 ", "", "120", "1.0", "90", ""⟩
        = .ok ⟨0, "esp-2", ⟨0, Location.UTC⟩, ⟨0x405E000000000000⟩, ⟨0x3FF0000000000000⟩,
            ⟨0x4056800000000000⟩, Float64.zero⟩ ∧
    strings_TrimSpace " esp-2 " = "esp-2" ∧
    PostDataHandler (goRuntime ⟨0, Location.Local⟩) ⟨" \t", "yesterday", "x", "y", "z", "NaN"⟩
        = .error ⟨400, "device_id is required"⟩ :=
  ⟨by decide,
    ((PostDataHandler_device_id (goRuntime ⟨0, Location.Local⟩)
        ⟨" esp-2 ", "", "120", "1.0", "90", ""⟩).2
      ⟨0, "esp-2", ⟨0, Location.UTC⟩, ⟨0x405E000000000000⟩, ⟨0x3FF0000000000000⟩,
        ⟨0x4056800000000000⟩, Float64.zero⟩ (by decide)).1.symm,
    (PostDataHandler_device_id (goRuntime ⟨0, Location.Local⟩)
      ⟨" \t", "yesterday", "x", "y", "z", "NaN"⟩).1 (by decide)⟩

/-- C7. An absent (empty) raw value makes `parseRequiredNumber` fail with `<field> is
required` and makes `parseOptionalNumber` return the value `0` with no error; on a non-empty
raw value the two functions return the same result. Hence a payload without `vrms` or without
`irms` is refused, and a payload without `apparent_power` and `wh` whose other fields are
valid is accepted, with `wh = 0`. -/
theorem required_versus_optional (rt : Runtime) (field : String) :
    parseRequiredNumber rt "" field = .error (field ++ " is required") ∧
    parseOptionalNumber rt "" field = .ok Float64.zero ∧
    (∀ raw, raw ≠ "" → parseOptionalNumber rt raw field = parseRequiredNumber rt raw field) ∧
    (∀ payload : energyPayload, payload.Vrms = "" ∨ payload.Irms = "" →
      ∃ msg, PostDataHandler rt payload = .error ⟨400, msg⟩) ∧
    (∀ payload : energyPayload, strings_TrimSpace payload.DeviceID ≠ "" →
      payload.Vrms = "" → PostDataHandler rt payload = .error ⟨400, "vrms is required"⟩) ∧
    (∀ (payload : energyPayload) (vrms irms : Float64) (timestamp : Time),
      strings_TrimSpace payload.DeviceID ≠ "" →
      parseRequiredNumber rt payload.Vrms "vrms" = .ok vrms →
      parseRequiredNumber rt payload.Irms "irms" = .ok irms →
      parseTimestamp rt payload.Timestamp = .ok timestamp →
      payload.ApparentPower = "" → payload.Wh = "" →
      ∃ data, PostDataHandler rt payload = .ok data ∧ data.Wh = Float64.zero) := by
  refine ⟨by simp [parseRequiredNumber], by simp [parseOptionalNumber], ?_, ?_, ?_, ?_⟩
  · intro raw hraw
    simp [parseOptionalNumber, hraw]
  · intro payload h
    exact PostDataHandler_missing_required rt payload h
  · intro payload hdev hv
    have hvrms : parseRequiredNumber rt payload.Vrms "vrms" = .error "vrms is required" := by
      simp [parseRequiredNumber, hv]
    simp only [PostDataHandler, hdev, hvrms, badRequest]
    rfl
  · intro payload vrms irms timestamp hdev hvrms hirms hts hap hwh
    have hap' : parseOptionalNumber rt payload.ApparentPower "apparent_power" = .ok Float64.zero := by
      simp [parseOptionalNumber, hap]
    have hwh' : parseOptionalNumber rt payload.Wh "wh" = .ok Float64.zero := by
      simp [parseOptionalNumber, hwh]
    exact ⟨_, PostDataHandler_eq_ok rt payload vrms irms Float64.zero Float64.zero timestamp hdev
      hvrms hirms hap' hwh' hts, rfl⟩

/-- C7, examples: a payload without `vrms` is refused with `vrms is required`, one without
`irms` with `irms is required`, and one without `apparent_power` and `wh` is accepted. -/
theorem required_versus_optional_witness :
    PostDataHandler (goRuntime ⟨0, Location.Local⟩) ⟨"esp-1", "", "", "0.5", "", ""⟩
        = .error ⟨400, "vrms is required"⟩ ∧
    PostDataHandler (goRuntime ⟨0, Location.Local⟩) ⟨"esp-1", "", "230.0", "", "", ""⟩
        = .error ⟨400, "irms is required"⟩ ∧
    (∃ data, PostDataHandler (goRuntime ⟨0, Location.Local⟩) ⟨"esp-1", "", "230.0", "0.5", "", ""⟩
        = .ok data ∧ data.Wh = Float64.zero) :=
  ⟨(required_versus_optional (goRuntime ⟨0, Location.Local⟩) "vrms").2.2.2.2.1
      ⟨"esp-1", "", "", "0.5", "", ""⟩ (by decide) rfl,
    by decide,
    (required_versus_optional (goRuntime ⟨0, Location.Local⟩) "wh").2.2.2.2.2
      ⟨"esp-1", "", "230.0", "0.5", "", ""⟩ ⟨0x406CC00000000000⟩ ⟨0x3FE0000000000000⟩
      ⟨0, Location.UTC⟩ (by decide) (by decide) (by decide) (by decide) rfl rfl⟩

/-- C8. A blank timestamp (empty or only white space) gives the current instant, in UTC,
with no error. A timestamp that is not blank succeeds exactly when the library parses it as
an RFC 3339 date-time, and fails with an `invalid timestamp: ...` error otherwise. Every
successful result is in UTC, and for a parsed string it is the instant the library parsed. -/
theorem parseTimestamp_spec (rt : Runtime) (ts : String) :
    (isBlank ts → parseTimestamp rt ts = .ok rt.now.UTC ∧ rt.now.UTC.unixNano = rt.now.unixNano) ∧
    (¬ isBlank ts →
      ((∃ t, parseTimestamp rt ts = .ok t) ↔ (∃ parsed, rt.timeParse ts = .ok parsed)) ∧
      (∀ err, rt.timeParse ts = .error err →
        parseTimestamp rt ts = .error ("invalid timestamp: " ++ err)) ∧
      (∀ parsed, rt.timeParse ts = .ok parsed →
        parseTimestamp rt ts = .ok parsed.UTC ∧ parsed.UTC.unixNano = parsed.unixNano)) ∧
    (∀ t, parseTimestamp rt ts = .ok t → t.loc = Location.UTC) := by
  refine ⟨?_, ?_, ?_⟩
  · intro hblank
    have h := (strings_TrimSpace_eq_empty_iff ts).mpr hblank
    exact ⟨by simp [parseTimestamp, h], rfl⟩
  · intro hblank
    have h : strings_TrimSpace ts ≠ "" := fun h => hblank ((strings_TrimSpace_eq_empty_iff ts).mp h)
    refine ⟨?_, ?_, ?_⟩
    · cases hp : rt.timeParse ts with
      | error err => simp [parseTimestamp, h, hp]
      | ok parsed => simp [parseTimestamp, h, hp]
    · intro err hp
      simp [parseTimestamp, h, hp]
    · intro parsed hp
      exact ⟨by simp [parseTimestamp, h, hp], rfl⟩
  · intro t ht
    by_cases h : strings_TrimSpace ts = ""
    · simp [parseTimestamp, h] at ht
      rw [← ht]
      rfl
    · cases hp : rt.timeParse ts with
      | error err => simp [parseTimestamp, h, hp] at ht
      | ok parsed =>
        simp [parseTimestamp, h, hp] at ht
        rw [← ht]
        rfl

/-- C8, examples with the library model and the clock at 1714557600 s: a blank timestamp
gives the clock reading in UTC; `2024-05-01T12:00:00+02:00` gives 10:00:00 UTC of that day;
a date-time with a leading blank and a date without a time are refused. -/
theorem parseTimestamp_spec_witness :
    parseTimestamp (goRuntime ⟨1714557600000000000, Location.Local⟩) " \n"
        = .ok ⟨1714557600000000000, Location.UTC⟩ ∧
    parseTimestamp (goRuntime ⟨0, Location.Local⟩) "2024-05-01T12:00:00+02:00"
        = .ok ⟨1714557600000000000, Location.UTC⟩ ∧
    (¬ ∃ t, parseTimestamp (goRuntime ⟨0, Location.Local⟩) " 2024-05-01T12:00:00Z" = .ok t) ∧
    parseTimestamp (goRuntime ⟨0, Location.Local⟩) "2024-05-01"
        = .error ("invalid timestamp: parsing time \"2024-05-01\" as " ++
            "\"2006-01-02T15:04:05Z07:00\": cannot parse") :=
  ⟨((parseTimestamp_spec (goRuntime ⟨1714557600000000000, Location.Local⟩) " \n").1
      (by decide)).1,
    (((parseTimestamp_spec (goRuntime ⟨0, Location.Local⟩) "2024-05-01T12:00:00+02:00").2.1
      (by decide)).2.2 ⟨1714557600000000000, Location.fixed "" 7200⟩ (by decide)).1,
    (fun ⟨t, ht⟩ => by
      have herr :=
        ((parseTimestamp_spec (goRuntime ⟨0, Location.Local⟩) " 2024-05-01T12:00:00Z").2.1
          (by decide)).2.1
          ("parsing time \" 2024-05-01T12:00:00Z\" as \"2006-01-02T15:04:05Z07:00\": cannot parse")
          (by decide)
      rw [herr] at ht
      cases ht),
    ((parseTimestamp_spec (goRuntime ⟨0, Location.Local⟩) "2024-05-01").2.1
      (by decide)).2.1 _ (by decide)⟩

/-- C10. The derived-field rule is idempotent: applying it to an already derived
`apparent_power` (with the same `vrms` and `irms`) does not change it. -/
theorem deriveApparentPower_idempotent (vrms irms apparentPower : Float64) :
    deriveApparentPower vrms irms (deriveApparentPower vrms irms apparentPower)
      = deriveApparentPower vrms irms apparentPower := by
  unfold deriveApparentPower
  by_cases h : apparentPower.eqZero = true
  · simp only [h, if_true]
    split <;> rfl
  · simp only [h, if_false]
    simp [h]

/-- C10, examples: the derived `115.0` of `230.0 * 0.5` stays `115.0`, and with `vrms = 0` the
derived power `0` is derived again to the same `0`. -/
theorem deriveApparentPower_idempotent_witness :
    deriveApparentPower ⟨0x406CC00000000000⟩ ⟨0x3FE0000000000000⟩ ⟨0x405CC00000000000⟩
        = ⟨0x405CC00000000000⟩ ∧
    deriveApparentPower ⟨0x406CC00000000000⟩ ⟨0x3FE0000000000000⟩ Float64.zero
        = ⟨0x405CC00000000000⟩ ∧
    deriveApparentPower Float64.zero ⟨0x3FE0000000000000⟩ Float64.zero = Float64.zero :=
  ⟨by
      have h := deriveApparentPower_idempotent ⟨0x406CC00000000000⟩ ⟨0x3FE0000000000000⟩
        Float64.zero
      have e : deriveApparentPower ⟨0x406CC00000000000⟩ ⟨0x3FE0000000000000⟩ Float64.zero
          = ⟨0x405CC00000000000⟩ := by decide
      rw [e] at h
      exact h,
    by decide, by decide⟩

/-! ## The grouping step of `GetDataHandler` -/

theorem DeviceMap.get_set_same (m : DeviceMap) (k : String) (v : List EnergyData) :
    DeviceMap.get (DeviceMap.set m k v) k = v := by
  induction m with
  | nil => simp [DeviceMap.set, DeviceMap.get]
  | cons e m ih =>
    obtain ⟨k', v'⟩ := e
    by_cases h : k' = k
    · simp [DeviceMap.set, DeviceMap.get, h]
    · simp [DeviceMap.set, DeviceMap.get, h, ih]

theorem DeviceMap.get_set_other (m : DeviceMap) {k k' : String} (v : List EnergyData)
    (hne : k ≠ k') : DeviceMap.get (DeviceMap.set m k v) k' = DeviceMap.get m k' := by
  induction m with
  | nil => simp [DeviceMap.set, DeviceMap.get, hne]
  | cons e m ih =>
    obtain ⟨k₀, v₀⟩ := e
    by_cases h : k₀ = k
    · subst h
      simp [DeviceMap.set, DeviceMap.get, hne]
    · by_cases h' : k₀ = k'
      · subst h'
        simp [DeviceMap.set, DeviceMap.get, h]
      · simp [DeviceMap.set, DeviceMap.get, h, h', ih]

theorem DeviceMap.keys_set (m : DeviceMap) (k : String) (v : List EnergyData) :
    (DeviceMap.set m k v).map Prod.fst =
      if k ∈ m.map Prod.fst then m.map Prod.fst else m.map Prod.fst ++ [k] := by
  induction m with
  | nil => simp [DeviceMap.set]
  | cons e m ih =>
    obtain ⟨k₀, v₀⟩ := e
    by_cases h : k₀ = k
    · subst h
      simp [DeviceMap.set]
    · have h' : ¬ k = k₀ := fun e => h e.symm
      simp only [DeviceMap.set, h, if_false, List.map_cons, ih, List.mem_cons, h', false_or]
      split <;> simp

theorem DeviceMap.get_of_mem {m : DeviceMap} (hnd : (m.map Prod.fst).Nodup)
    {e : String × List EnergyData} (he : e ∈ m) : DeviceMap.get m e.1 = e.2 := by
  induction m with
  | nil => cases he
  | cons e₀ m ih =>
    obtain ⟨k₀, v₀⟩ := e₀
    rw [List.map_cons, List.nodup_cons] at hnd
    rcases List.mem_cons.mp he with h | h
    · subst h
      simp [DeviceMap.get]
    · have hne : k₀ ≠ e.1 := by
        intro heq
        have hmem : e.1 ∈ m.map Prod.fst := List.mem_map_of_mem Prod.fst h
        rw [← heq] at hmem
        exact hnd.1 hmem
      simp [DeviceMap.get, hne, ih hnd.2 h]

theorem DeviceMap.flatMap_set_perm (m : DeviceMap) (k : String) (x : EnergyData) :
    ((DeviceMap.set m k (DeviceMap.get m k ++ [x])).flatMap Prod.snd).Perm
      (m.flatMap Prod.snd ++ [x]) := by
  induction m with
  | nil => simp [DeviceMap.set, DeviceMap.get]
  | cons e m ih =>
    obtain ⟨k₀, v₀⟩ := e
    by_cases h : k₀ = k
    · simp only [DeviceMap.set, DeviceMap.get, h, if_true, List.flatMap_cons]
      rw [List.append_assoc, List.append_assoc]
      exact List.Perm.append_left _ List.perm_append_comm
    · simp only [DeviceMap.set, DeviceMap.get, h, if_false, List.flatMap_cons]
      rw [List.append_assoc]
      exact List.Perm.append_left _ ih

theorem GroupedUpTo.step {m : DeviceMap} {pre : List EnergyData} (h : GroupedUpTo m pre)
    (x : EnergyData) :
    GroupedUpTo (DeviceMap.set m x.DeviceID (DeviceMap.get m x.DeviceID ++ [x])) (pre ++ [x]) := by
  refine ⟨?_, ?_, ?_, ?_⟩
  · rw [DeviceMap.keys_set]
    split
    · exact h.nodup
    · rename_i hk
      exact List.Nodup.append h.nodup (List.nodup_singleton _) (by simpa using hk)
  · intro k
    by_cases hk : x.DeviceID = k
    · subst hk
      rw [DeviceMap.get_set_same, h.get_eq]
      simp
    · rw [DeviceMap.get_set_other _ _ hk, h.get_eq]
      simp [hk]
  · intro k
    rw [DeviceMap.keys_set]
    by_cases hx : x.DeviceID ∈ m.map Prod.fst
    · rw [if_pos hx, h.mem_keys]
      constructor
      · rintro ⟨r, hr, hrk⟩
        exact ⟨r, List.mem_append_left _ hr, hrk⟩
      · rintro ⟨r, hr, hrk⟩
        rcases List.mem_append.mp hr with hr | hr
        · exact ⟨r, hr, hrk⟩
        · rw [List.mem_singleton] at hr
          subst hr
          rw [← hrk]
          exact (h.mem_keys _).mp hx
    · rw [if_neg hx, List.mem_append, h.mem_keys, List.mem_singleton]
      constructor
      · rintro (⟨r, hr, hrk⟩ | hk)
        · exact ⟨r, List.mem_append_left _ hr, hrk⟩
        · exact ⟨x, by simp, hk.symm⟩
      · rintro ⟨r, hr, hrk⟩
        rcases List.mem_append.mp hr with hr | hr
        · exact Or.inl ⟨r, hr, hrk⟩
        · rw [List.mem_singleton] at hr
          subst hr
          exact Or.inr hrk.symm
  · exact (DeviceMap.flatMap_set_perm m x.DeviceID x).trans (List.Perm.append_right _ h.perm)

theorem GroupedUpTo.foldl (rest : List EnergyData) :
    ∀ (m : DeviceMap) (pre : List EnergyData), GroupedUpTo m pre →
      GroupedUpTo
        (rest.foldl (fun deviceMap data =>
          DeviceMap.set deviceMap data.DeviceID (DeviceMap.get deviceMap data.DeviceID ++ [data])) m)
        (pre ++ rest) := by
  induction rest with
  | nil =>
    intro m pre h
    simpa using h
  | cons x rest ih =>
    intro m pre h
    have h' := ih _ _ (h.step x)
    simpa using h'

theorem buildDeviceMap_grouped (results : List EnergyData) :
    GroupedUpTo (buildDeviceMap results) results := by
  have h := GroupedUpTo.foldl results [] [] ⟨by simp, by simp [DeviceMap.get], by simp, by simp⟩
  simpa [buildDeviceMap] using h

theorem foldl_append_singleton {α β : Type} (f : α → β) (l : List α) :
    ∀ init : List β, l.foldl (fun acc e => acc ++ [f e]) init = init ++ l.map f := by
  induction l with
  | nil => simp
  | cons a l ih =>
    intro init
    simp [ih]

theorem collectGroups_eq_map (visited : List (String × List EnergyData)) :
    collectGroups visited = visited.map (fun e => (⟨e.1, e.2⟩ : DeviceDataGroup)) := by
  unfold collectGroups
  rw [foldl_append_singleton (fun e : String × List EnergyData => (⟨e.1, e.2⟩ : DeviceDataGroup))]
  simp

/-- Elements with pairwise distinct keys, none less than one before it, are in strictly
ascending order of key. -/
theorem strictly_ascending_of_sorted {α : Type} (key : α → String) {l : List α}
    (hnd : (l.map key).Nodup) (hs : l.Pairwise (fun a b => ¬ key b < key a)) :
    l.Pairwise (fun a b => key a < key b) := by
  have hne : l.Pairwise (fun a b => key a ≠ key b) := by
    rw [List.Nodup, List.pairwise_map] at hnd
    exact hnd
  refine (hs.and hne).imp ?_
  rintro a b ⟨h₁, h₂⟩
  exact lt_of_le_of_ne (not_lt.mp h₁) h₂

/-- With pairwise distinct keys the sorted order is unique: two arrangements of the same
groups, each with no group less than one before it, are equal. So the outcome of
`sort.Slice` here does not depend on the sorting algorithm. -/
theorem sorted_perm_unique {l₁ l₂ : List DeviceDataGroup} (hp : l₁.Perm l₂)
    (hnd : (l₁.map (fun g => g.DeviceID)).Nodup)
    (h₁ : l₁.Pairwise (fun a b => ¬ b.DeviceID < a.DeviceID))
    (h₂ : l₂.Pairwise (fun a b => ¬ b.DeviceID < a.DeviceID)) : l₁ = l₂ := by
  have hnd₂ : (l₂.map (fun g => g.DeviceID)).Nodup := (hp.map _).nodup_iff.mp hnd
  haveI : IsAntisymm DeviceDataGroup (fun a b => a.DeviceID < b.DeviceID) :=
    ⟨fun a b hab hba => absurd hba (lt_asymm hab)⟩
  exact List.eq_of_perm_of_sorted hp
    (strictly_ascending_of_sorted (fun g : DeviceDataGroup => g.DeviceID) hnd h₁)
    (strictly_ascending_of_sorted (fun g : DeviceDataGroup => g.DeviceID) hnd₂ h₂)

/-- The output of the grouping step is an arrangement of the map's entries. -/
theorem GetDataHandler_groups_perm (rangeOrder : DeviceMap → List (String × List EnergyData))
    (hrange : ∀ m, (rangeOrder m).Perm m) (results : List EnergyData) :
    (GetDataHandler_groups rangeOrder results).Perm
      ((buildDeviceMap results).map (fun e => (⟨e.1, e.2⟩ : DeviceDataGroup))) := by
  unfold GetDataHandler_groups sort_Slice
  refine (List.perm_insertionSort _ _).trans ?_
  rw [collectGroups_eq_map]
  exact (hrange _).map _

/-- The device ids of the output, in output order, are an arrangement of the map's keys. -/
theorem GetDataHandler_groups_keys_perm
    (rangeOrder : DeviceMap → List (String × List EnergyData))
    (hrange : ∀ m, (rangeOrder m).Perm m) (results : List EnergyData) :
    ((GetDataHandler_groups rangeOrder results).map (fun g => g.DeviceID)).Perm
      ((buildDeviceMap results).map Prod.fst) := by
  have h := (GetDataHandler_groups_perm rangeOrder hrange results).map (fun g => g.DeviceID)
  simpa [List.map_map, Function.comp] using h

theorem GetDataHandler_groups_pairwise
    (rangeOrder : DeviceMap → List (String × List EnergyData)) (results : List EnergyData) :
    (GetDataHandler_groups rangeOrder results).Pairwise
      (fun a b => ¬ b.DeviceID < a.DeviceID) := by
  unfold GetDataHandler_groups sort_Slice
  exact List.sorted_insertionSort _ _

/-- Every group of the output holds the readings of its device, in input order. -/
theorem GetDataHandler_groups_data (rangeOrder : DeviceMap → List (String × List EnergyData))
    (hrange : ∀ m, (rangeOrder m).Perm m) (results : List EnergyData)
    (g : DeviceDataGroup) (hg : g ∈ GetDataHandler_groups rangeOrder results) :
    g.Data = results.filter (fun r => r.DeviceID = g.DeviceID) ∧
      ∃ r ∈ results, r.DeviceID = g.DeviceID := by
  have hinv := buildDeviceMap_grouped results
  have hmem := (GetDataHandler_groups_perm rangeOrder hrange results).mem_iff.mp hg
  obtain ⟨e, he, rfl⟩ := List.mem_map.mp hmem
  refine ⟨?_, ?_⟩
  · show e.2 = _
    rw [← DeviceMap.get_of_mem hinv.nodup he, hinv.get_eq]
  · exact (hinv.mem_keys e.1).mp (List.mem_map_of_mem Prod.fst he)

/-- C1. For every list of readings the store returns, and whatever order the runtime visits
the intermediate map in: the device ids of the groups are in strictly ascending order (so no
id occurs twice), they are exactly the device ids occurring in the list, one group each, and
the output is the same for any other visiting order; it is also the only arrangement of the
collected groups in which no group is less than one before it, whatever algorithm sorts. -/
theorem GetDataHandler_groups_sorted_distinct
    (rangeOrder rangeOrder' : DeviceMap → List (String × List EnergyData))
    (hrange : ∀ m, (rangeOrder m).Perm m) (hrange' : ∀ m, (rangeOrder' m).Perm m)
    (results : List EnergyData) :
    ((GetDataHandler_groups rangeOrder results).map (fun g => g.DeviceID)).Pairwise (· < ·) ∧
    (∀ d, d ∈ (GetDataHandler_groups rangeOrder results).map (fun g => g.DeviceID) ↔
      ∃ r ∈ results, r.DeviceID = d) ∧
    ((GetDataHandler_groups rangeOrder results).map (fun g => g.DeviceID)).Perm
      (results.map (fun r => r.DeviceID)).dedup ∧
    GetDataHandler_groups rangeOrder' results = GetDataHandler_groups rangeOrder results ∧
    (∀ sorted : List DeviceDataGroup,
      sorted.Perm (collectGroups (rangeOrder (buildDeviceMap results))) →
      sorted.Pairwise (fun a b => ¬ b.DeviceID < a.DeviceID) →
      sorted = GetDataHandler_groups rangeOrder results) := by
  have hinv := buildDeviceMap_grouped results
  have hkeys := GetDataHandler_groups_keys_perm rangeOrder hrange results
  have hnd : ((GetDataHandler_groups rangeOrder results).map (fun g => g.DeviceID)).Nodup :=
    hkeys.nodup_iff.mpr hinv.nodup
  have hmem : ∀ d, d ∈ (GetDataHandler_groups rangeOrder results).map (fun g => g.DeviceID) ↔
      ∃ r ∈ results, r.DeviceID = d := by
    intro d
    rw [hkeys.mem_iff, hinv.mem_keys]
  refine ⟨?_, hmem, ?_, ?_, ?_⟩
  · rw [List.pairwise_map]
    exact strictly_ascending_of_sorted (fun g : DeviceDataGroup => g.DeviceID) hnd
      (GetDataHandler_groups_pairwise rangeOrder results)
  · rw [List.perm_ext_iff_of_nodup hnd (List.nodup_dedup _)]
    intro d
    rw [hmem, List.mem_dedup, List.mem_map]
  · have hnd' : ((GetDataHandler_groups rangeOrder' results).map (fun g => g.DeviceID)).Nodup :=
      (GetDataHandler_groups_keys_perm rangeOrder' hrange' results).nodup_iff.mpr hinv.nodup
    exact sorted_perm_unique
      ((GetDataHandler_groups_perm rangeOrder' hrange' results).trans
        (GetDataHandler_groups_perm rangeOrder hrange results).symm)
      hnd' (GetDataHandler_groups_pairwise rangeOrder' results)
      (GetDataHandler_groups_pairwise rangeOrder results)
  · intro sorted hp hs
    have hp' : sorted.Perm (GetDataHandler_groups rangeOrder results) := by
      refine hp.trans ?_
      unfold GetDataHandler_groups sort_Slice
      exact (List.perm_insertionSort _ _).symm
    exact sorted_perm_unique hp' ((hp'.map _).nodup_iff.mpr hnd) hs
      (GetDataHandler_groups_pairwise rangeOrder results)

/-- C1, example: three readings from two devices (newest first, the newest from `esp-2`)
give exactly two groups, `esp-1` before `esp-2`, whether the map is visited in insertion order
or in the reverse order. -/
theorem GetDataHandler_groups_sorted_distinct_witness :
    (GetDataHandler_groups List.reverse
        [sampleReading 3 "esp-2" 30 ⟨0⟩, sampleReading 2 "esp-1" 20 ⟨0⟩,
          sampleReading 1 "esp-2" 10 ⟨0⟩]).map (fun g => g.DeviceID) = ["esp-1", "esp-2"] ∧
    GetDataHandler_groups id
        [sampleReading 3 "esp-2" 30 ⟨0⟩, sampleReading 2 "esp-1" 20 ⟨0⟩,
          sampleReading 1 "esp-2" 10 ⟨0⟩] =
      GetDataHandler_groups List.reverse
        [sampleReading 3 "esp-2" 30 ⟨0⟩, sampleReading 2 "esp-1" 20 ⟨0⟩,
          sampleReading 1 "esp-2" 10 ⟨0⟩] :=
  ⟨by
      simp +decide [GetDataHandler_groups, sort_Slice, collectGroups, buildDeviceMap,
        DeviceMap.set, DeviceMap.get, sampleReading, List.insertionSort, List.orderedInsert,
        String.lt_iff_toList_lt],
    (GetDataHandler_groups_sorted_distinct List.reverse id (fun m => List.reverse_perm m)
      (fun m => List.Perm.refl m) _).2.2.2.1⟩

/-- C2. The grouping step is an order-preserving partition: every group of the output holds
exactly the readings of the input whose `device_id` is the group's, in input order, and is
not empty; the groups together hold every reading exactly once; every reading is in the group
of its own device and in no other; and an input sorted by timestamp descending gives groups
sorted by timestamp descending. -/
theorem GetDataHandler_groups_partition
    (rangeOrder : DeviceMap → List (String × List EnergyData))
    (hrange : ∀ m, (rangeOrder m).Perm m) (results : List EnergyData) :
    (∀ g ∈ GetDataHandler_groups rangeOrder results,
      g.Data = results.filter (fun r => r.DeviceID = g.DeviceID) ∧ g.Data ≠ []) ∧
    ((GetDataHandler_groups rangeOrder results).flatMap (fun g => g.Data)).Perm results ∧
    (∀ r ∈ results, ∀ g ∈ GetDataHandler_groups rangeOrder results,
      r ∈ g.Data ↔ g.DeviceID = r.DeviceID) ∧
    (∀ r ∈ results, ∃ g ∈ GetDataHandler_groups rangeOrder results, r ∈ g.Data) ∧
    (results.Pairwise (fun a b => b.Timestamp.unixNano ≤ a.Timestamp.unixNano) →
      ∀ g ∈ GetDataHandler_groups rangeOrder results,
        g.Data.Pairwise (fun a b => b.Timestamp.unixNano ≤ a.Timestamp.unixNano)) := by
  have hinv := buildDeviceMap_grouped results
  have hdata := GetDataHandler_groups_data rangeOrder hrange results
  refine ⟨?_, ?_, ?_, ?_, ?_⟩
  · intro g hg
    obtain ⟨hfilter, r, hr, hrd⟩ := hdata g hg
    refine ⟨hfilter, ?_⟩
    rw [hfilter]
    intro hnil
    have hmem : r ∈ results.filter (fun r => r.DeviceID = g.DeviceID) := by
      simp [List.mem_filter, hr, hrd]
    rw [hnil] at hmem
    cases hmem
  · have h := (GetDataHandler_groups_perm rangeOrder hrange results).flatMap_right
      (fun g => g.Data)
    refine h.trans ?_
    rw [List.flatMap_map]
    exact hinv.perm
  · intro r hr g hg
    rw [(hdata g hg).1]
    simp [List.mem_filter, hr, eq_comm]
  · intro r hr
    have hkey : r.DeviceID ∈
        (GetDataHandler_groups rangeOrder results).map (fun g => g.DeviceID) := by
      rw [(GetDataHandler_groups_keys_perm rangeOrder hrange results).mem_iff, hinv.mem_keys]
      exact ⟨r, hr, rfl⟩
    obtain ⟨g, hg, hgd⟩ := List.mem_map.mp hkey
    refine ⟨g, hg, ?_⟩
    rw [(hdata g hg).1]
    simp [List.mem_filter, hr, hgd]
  · intro hsorted g hg
    rw [(hdata g hg).1]
    exact hsorted.sublist (List.filter_sublist _)

/-- C2, example: of the three readings (newest first) the group of `esp-1` holds the second,
the group of `esp-2` the first and the third, in that order. -/
theorem GetDataHandler_groups_partition_witness :
    GetDataHandler_groups List.reverse
        [sampleReading 3 "esp-2" 30 ⟨0⟩, sampleReading 2 "esp-1" 20 ⟨0⟩,
          sampleReading 1 "esp-2" 10 ⟨0⟩] =
      [⟨"esp-1", [sampleReading 2 "esp-1" 20 ⟨0⟩]⟩,
        ⟨"esp-2", [sampleReading 3 "esp-2" 30 ⟨0⟩, sampleReading 1 "esp-2" 10 ⟨0⟩]⟩] ∧
    ((GetDataHandler_groups List.reverse
        [sampleReading 3 "esp-2" 30 ⟨0⟩, sampleReading 2 "esp-1" 20 ⟨0⟩,
          sampleReading 1 "esp-2" 10 ⟨0⟩]).flatMap (fun g => g.Data)).Perm
      [sampleReading 3 "esp-2" 30 ⟨0⟩, sampleReading 2 "esp-1" 20 ⟨0⟩,
        sampleReading 1 "esp-2" 10 ⟨0⟩] :=
  ⟨by
      simp +decide [GetDataHandler_groups, sort_Slice, collectGroups, buildDeviceMap,
        DeviceMap.set, DeviceMap.get, sampleReading, List.insertionSort, List.orderedInsert,
        String.lt_iff_toList_lt],
    (GetDataHandler_groups_partition List.reverse (fun m => List.reverse_perm m) _).2.1⟩

/-! ## `GetDeviceDataHandler` -/

/-- C3 as stated fails: when the query returns no reading the handler answers with status
404 and the text `No data found for device`, not with a success and an empty list. -/
theorem GetDeviceDataHandler_empty_is_not_found :
    GetDeviceDataHandler (.ok []) = ⟨404, .text "No data found for device"⟩ ∧
    (GetDeviceDataHandler (.ok [])).status ≠ 200 ∧
    (GetDeviceDataHandler (.ok [])).body ≠ .readings [] := by
  decide

/-- C3, amended. When the query of `GetDeviceDataHandler` returns zero readings (in
particular when the store holds no reading of the device) the handler answers with the
not-found error: status 404, `No data found for device`. When it returns at least one
reading the handler answers with success and those readings; a failed query is answered
with status 500. -/
theorem GetDeviceDataHandler_responses (sortDesc : List EnergyData → List EnergyData)
    (hperm : ∀ l, (sortDesc l).Perm l) (store : List EnergyData) (deviceID : String) :
    ((∀ r ∈ store, r.DeviceID ≠ deviceID) →
      GetDeviceDataHandler (.ok (findDeviceData sortDesc store deviceID))
        = ⟨404, .text "No data found for device"⟩) ∧
    (∀ deviceData : List EnergyData, deviceData = [] →
      GetDeviceDataHandler (.ok deviceData) = ⟨404, .text "No data found for device"⟩) ∧
    (∀ deviceData : List EnergyData, deviceData ≠ [] →
      GetDeviceDataHandler (.ok deviceData) = ⟨200, .readings deviceData⟩) ∧
    (∀ err, GetDeviceDataHandler (.error err) = ⟨500, .text "Database error"⟩) := by
  refine ⟨?_, ?_, ?_, ?_⟩
  · intro hnone
    have hfilter : store.filter (fun r => r.DeviceID = deviceID) = [] := by
      rw [List.filter_eq_nil_iff]
      intro r hr
      simpa using hnone r hr
    have hsorted : sortDesc [] = [] := List.perm_nil.mp (hperm [])
    simp [GetDeviceDataHandler, findDeviceData, hfilter, hsorted]
  · intro deviceData h
    simp [GetDeviceDataHandler, h]
  · intro deviceData h
    simp [GetDeviceDataHandler, h]
  · intro err
    rfl

/-- C3 amended, example: a store with readings of `esp-1` only, queried for `esp-9`, is
answered with 404; queried for `esp-1` with the two readings, newest first. -/
theorem GetDeviceDataHandler_responses_witness :
    GetDeviceDataHandler (.ok (findDeviceData sampleEngine.sortByTimestampDesc
        [sampleReading 1 "esp-1" 10 ⟨0⟩, sampleReading 2 "esp-1" 20 ⟨0⟩] "esp-9"))
      = ⟨404, .text "No data found for device"⟩ ∧
    GetDeviceDataHandler (.ok (findDeviceData sampleEngine.sortByTimestampDesc
        [sampleReading 1 "esp-1" 10 ⟨0⟩, sampleReading 2 "esp-1" 20 ⟨0⟩] "esp-1"))
      = ⟨200, .readings [sampleReading 2 "esp-1" 20 ⟨0⟩, sampleReading 1 "esp-1" 10 ⟨0⟩]⟩ :=
  ⟨(GetDeviceDataHandler_responses sampleEngine.sortByTimestampDesc
      (fun l => List.perm_insertionSort _ l)
      [sampleReading 1 "esp-1" 10 ⟨0⟩, sampleReading 2 "esp-1" 20 ⟨0⟩] "esp-9").1 (by decide),
    by decide⟩

/-! ## The summary view of `GetGroupedDataHandler` -/

theorem maxFrom_mem (x : Float64) (ys : List Float64) : maxFrom x ys ∈ x :: ys := by
  induction ys generalizing x with
  | nil => simp [maxFrom]
  | cons y ys ih =>
    have h : maxFrom x (y :: ys) = maxFrom (if x.key < y.key then y else x) ys := rfl
    rw [h]
    have := ih (if x.key < y.key then y else x)
    rcases List.mem_cons.mp this with h1 | h1
    · rw [h1]
      split <;> simp
    · exact List.mem_cons_of_mem _ (List.mem_cons_of_mem _ h1)

theorem maxFrom_ge_init (x : Float64) (ys : List Float64) : x.key ≤ (maxFrom x ys).key := by
  induction ys generalizing x with
  | nil => simp [maxFrom]
  | cons y ys ih =>
    have h : maxFrom x (y :: ys) = maxFrom (if x.key < y.key then y else x) ys := rfl
    rw [h]
    refine le_trans ?_ (ih _)
    split
    · rename_i hlt
      exact le_of_lt hlt
    · exact le_refl _

theorem maxFrom_ge (x : Float64) (ys : List Float64) :
    ∀ y ∈ x :: ys, y.key ≤ (maxFrom x ys).key := by
  induction ys generalizing x with
  | nil =>
    intro y hy
    simp at hy
    subst hy
    simp [maxFrom]
  | cons z ys ih =>
    have h : maxFrom x (z :: ys) = maxFrom (if x.key < z.key then z else x) ys := rfl
    intro y hy
    rw [h]
    rcases List.mem_cons.mp hy with h1 | h1
    · subst h1
      exact maxFrom_ge_init y (z :: ys) |>.trans (le_of_eq (by rw [h]))
    · rcases List.mem_cons.mp h1 with h2 | h2
      · subst h2
        refine le_trans ?_ (maxFrom_ge_init _ ys)
        split
        · exact le_refl _
        · rename_i hnlt
          exact not_lt.mp hnlt
      · exact ih _ y (List.mem_cons_of_mem _ h2)

theorem lastRoot_eq_getLast (d : EnergyData) (ds : List EnergyData) :
    lastRoot (d :: ds) = .document ((d :: ds).getLast (List.cons_ne_nil _ _)) := by
  induction ds generalizing d with
  | nil => rfl
  | cons e es ih =>
    have h : lastRoot (d :: e :: es) = lastRoot (e :: es) := rfl
    rw [h, ih e]
    simp [List.getLast_cons]

theorem pairwise_getLast {α : Type} {R : α → α → Prop} (a : α) (l : List α)
    (h : (a :: l).Pairwise R) :
    ∀ b ∈ a :: l, b = (a :: l).getLast (List.cons_ne_nil _ _) ∨
      R b ((a :: l).getLast (List.cons_ne_nil _ _)) := by
  induction l generalizing a with
  | nil =>
    intro b hb
    left
    simpa using hb
  | cons c l ih =>
    intro b hb
    have hlast : (a :: c :: l).getLast (List.cons_ne_nil _ _)
        = (c :: l).getLast (List.cons_ne_nil _ _) := by
      simp [List.getLast_cons]
    rw [hlast]
    rcases List.mem_cons.mp hb with h1 | h1
    · subst h1
      right
      exact (List.pairwise_cons.mp h).1 _ (List.getLast_mem _)
    · exact ih c (List.pairwise_cons.mp h).2 b h1

theorem foldl_transform_eq_some {α β : Type} (f : α → Option β) (g : α → β) (l : List α)
    (h : ∀ a ∈ l, f a = some (g a)) :
    ∀ init : List β,
      l.foldl (fun acc a => acc.bind fun bs => (f a).map fun b => bs ++ [b]) (some init)
        = some (init ++ l.map g) := by
  induction l with
  | nil => simp
  | cons a l ih =>
    intro init
    have h1 := h a (List.mem_cons_self _ _)
    have h2 := ih (fun b hb => h b (List.mem_cons_of_mem _ hb)) (init ++ [g a])
    simp only [List.foldl_cons, Option.some_bind, h1, Option.map_some', h2]
    simp

theorem mem_dedup_deviceIDs {docs : List EnergyData} {k : String} :
    k ∈ (docs.map (fun d => d.DeviceID)).dedup ↔ ∃ d ∈ docs, d.DeviceID = k := by
  rw [List.mem_dedup, List.mem_map]

theorem filter_device_ne_nil {docs : List EnergyData} {k : String}
    (hk : ∃ d ∈ docs, d.DeviceID = k) : docs.filter (fun d => d.DeviceID = k) ≠ [] := by
  obtain ⟨d, hd, hdk⟩ := hk
  intro hnil
  have hmem : d ∈ docs.filter (fun d => d.DeviceID = k) := by
    simp [List.mem_filter, hd, hdk]
  rw [hnil] at hmem
  cases hmem

/-- The loop body succeeds on the row of a device that has a reading. -/
theorem toDeviceGroup_groupRow (engine : Engine) (docs : List EnergyData) (k : String)
    (hk : ∃ d ∈ docs, d.DeviceID = k) :
    toDeviceGroup (groupRow engine docs k) = some (summaryOf engine docs k) := by
  have hne := filter_device_ne_nil hk
  cases hf : docs.filter (fun d => d.DeviceID = k) with
  | nil => exact absurd hf hne
  | cons x xs =>
    simp [toDeviceGroup, groupRow, summaryOf, hf, maxDouble, sumOnes, assertString, assertInt32,
      assertFloat64]

/-- The handler's output: the summaries of the device ids, in the order of the last stage. -/
theorem GetGroupedDataHandler_eq (engine : Engine) (store : List EnergyData) :
    GetGroupedDataHandler engine store = some
      ((aggregate engine store).map
        (fun row => summaryOf engine (engine.sortByTimestampDesc store) row.idString)) := by
  unfold GetGroupedDataHandler
  rw [foldl_transform_eq_some toDeviceGroup
    (fun row => summaryOf engine (engine.sortByTimestampDesc store) row.idString)]
  · simp
  · intro row hrow
    have hrow' : row ∈ groupStage engine (engine.sortByTimestampDesc store) :=
      (List.perm_insertionSort _ _).mem_iff.mp hrow
    obtain ⟨k, hk, rfl⟩ := List.mem_map.mp hrow'
    exact toDeviceGroup_groupRow engine _ k (mem_dedup_deviceIDs.mp hk)

/-- The device ids of the output are the distinct device ids of the sorted input, arranged. -/
theorem aggregate_ids_perm (engine : Engine) (store : List EnergyData) :
    ((aggregate engine store).map (fun row => row.idString)).Perm
      ((engine.sortByTimestampDesc store).map (fun d => d.DeviceID)).dedup := by
  unfold aggregate sortById
  refine ((List.perm_insertionSort _ _).map _).trans ?_
  unfold groupStage
  rw [List.map_map]
  have h : ((fun row : AggregateRow => row.idString) ∘
      groupRow engine (engine.sortByTimestampDesc store)) = id := by
    funext k
    rfl
  rw [h, List.map_id]

theorem aggregate_ids_ascending (engine : Engine) (store : List EnergyData) :
    (aggregate engine store).Pairwise (fun a b => a.idString < b.idString) := by
  refine strictly_ascending_of_sorted (fun row : AggregateRow => row.idString) ?_ ?_
  · exact (aggregate_ids_perm engine store).nodup_iff.mpr (List.nodup_dedup _)
  · unfold aggregate sortById
    exact List.sorted_insertionSort _ _

/-- What the summary of a device says about the sorted readings `docs`. -/
theorem summaryOf_sorted (engine : Engine) (docs : List EnergyData) (k : String)
    (hk : ∃ d ∈ docs, d.DeviceID = k)
    (hsorted : docs.Pairwise (fun a b => b.Timestamp.unixNano ≤ a.Timestamp.unixNano)) :
    (docs.filter (fun d => d.DeviceID = k)).head? = some (summaryOf engine docs k).LatestReading ∧
    (docs.filter (fun d => d.DeviceID = k)).getLast? = some (summaryOf engine docs k).FirstReading ∧
    (∃ r ∈ docs, r.DeviceID = k ∧ r.Wh = (summaryOf engine docs k).TotalWh) ∧
    (∀ r ∈ docs, r.DeviceID = k →
      r.Wh.key ≤ (summaryOf engine docs k).TotalWh.key ∧
      r.Timestamp.unixNano ≤ (summaryOf engine docs k).LatestReading.Timestamp.unixNano ∧
      (summaryOf engine docs k).FirstReading.Timestamp.unixNano ≤ r.Timestamp.unixNano) := by
  have hne := filter_device_ne_nil hk
  have hmem : ∀ r, r ∈ docs.filter (fun d => d.DeviceID = k) ↔ r ∈ docs ∧ r.DeviceID = k := by
    intro r
    simp [List.mem_filter]
  have hpw : (docs.filter (fun d => d.DeviceID = k)).Pairwise
      (fun a b => b.Timestamp.unixNano ≤ a.Timestamp.unixNano) :=
    hsorted.sublist (List.filter_sublist _)
  cases hf : docs.filter (fun d => d.DeviceID = k) with
  | nil => exact absurd hf hne
  | cons x xs =>
    rw [hf] at hmem hpw
    have hlatest : (summaryOf engine docs k).LatestReading = x := by
      simp [summaryOf, hf, firstRoot, decodeReading]
    have hfirst : (summaryOf engine docs k).FirstReading
        = (x :: xs).getLast (List.cons_ne_nil _ _) := by
      simp only [summaryOf, hf, lastRoot_eq_getLast, decodeReading]
    have htotal : (summaryOf engine docs k).TotalWh = maxFrom x.Wh (xs.map (fun d => d.Wh)) := by
      simp [summaryOf, hf]
    refine ⟨by rw [hlatest]; rfl, by rw [hfirst, List.getLast?_eq_getLast _ (List.cons_ne_nil _ _)],
      ?_, ?_⟩
    · have h := maxFrom_mem x.Wh (xs.map (fun d => d.Wh))
      rw [← List.map_cons (fun d : EnergyData => d.Wh) x xs] at h
      obtain ⟨r, hr, hrw⟩ := List.mem_map.mp h
      exact ⟨r, ((hmem r).mp hr).1, ((hmem r).mp hr).2, by rw [htotal]; exact hrw⟩
    · intro r hr hrk
      have hr' : r ∈ x :: xs := (hmem r).mpr ⟨hr, hrk⟩
      refine ⟨?_, ?_, ?_⟩
      · rw [htotal]
        apply maxFrom_ge
        rw [← List.map_cons (fun d : EnergyData => d.Wh) x xs]
        exact List.mem_map_of_mem _ hr'
      · rw [hlatest]
        rcases List.mem_cons.mp hr' with h1 | h1
        · rw [h1]
        · exact (List.pairwise_cons.mp hpw).1 r h1
      · rw [hfirst]
        rcases pairwise_getLast x xs hpw r hr' with h1 | h1
        · rw [← h1]
        · exact h1

/-- The summaries `GetGroupedDataHandler` returns, characterised on the stored readings. -/
theorem GetGroupedDataHandler_characterised (engine : Engine) (store : List EnergyData)
    (hperm : ∀ l, (engine.sortByTimestampDesc l).Perm l)
    (hsorted : ∀ l, (engine.sortByTimestampDesc l).Pairwise
      (fun a b => b.Timestamp.unixNano ≤ a.Timestamp.unixNano)) :
    ∃ groups, GetGroupedDataHandler engine store = some groups ∧
      (groups.map (fun g => g.DeviceID)).Pairwise (· < ·) ∧
      (∀ d, d ∈ groups.map (fun g => g.DeviceID) ↔ ∃ r ∈ store, r.DeviceID = d) ∧
      (∀ g ∈ groups,
        g.RecordCount = ((store.filter (fun r => r.DeviceID = g.DeviceID)).length : Int) ∧
        ((engine.sortByTimestampDesc store).filter (fun r => r.DeviceID = g.DeviceID)).head?
          = some g.LatestReading ∧
        ((engine.sortByTimestampDesc store).filter (fun r => r.DeviceID = g.DeviceID)).getLast?
          = some g.FirstReading ∧
        (∃ r ∈ store, r.DeviceID = g.DeviceID ∧ r.Wh = g.TotalWh) ∧
        (∀ r ∈ store, r.DeviceID = g.DeviceID →
          r.Wh.key ≤ g.TotalWh.key ∧
          r.Timestamp.unixNano ≤ g.LatestReading.Timestamp.unixNano ∧
          g.FirstReading.Timestamp.unixNano ≤ r.Timestamp.unixNano)) := by
  have hmemstore : ∀ r, r ∈ engine.sortByTimestampDesc store ↔ r ∈ store :=
    fun r => (hperm store).mem_iff
  have hids : ((aggregate engine store).map
      (fun row => summaryOf engine (engine.sortByTimestampDesc store) row.idString)).map
        (fun g => g.DeviceID) = (aggregate engine store).map (fun row => row.idString) := by
    rw [List.map_map]
    rfl
  have hkeys : ∀ d, d ∈ (aggregate engine store).map (fun row => row.idString) ↔
      ∃ r ∈ store, r.DeviceID = d := by
    intro d
    rw [(aggregate_ids_perm engine store).mem_iff, mem_dedup_deviceIDs]
    constructor
    · rintro ⟨r, hr, hrd⟩
      exact ⟨r, (hmemstore r).mp hr, hrd⟩
    · rintro ⟨r, hr, hrd⟩
      exact ⟨r, (hmemstore r).mpr hr, hrd⟩
  refine ⟨_, GetGroupedDataHandler_eq engine store, ?_, ?_, ?_⟩
  · rw [hids, List.pairwise_map]
    exact aggregate_ids_ascending engine store
  · intro d
    rw [hids]
    exact hkeys d
  · intro g hg
    obtain ⟨row, hrow, rfl⟩ := List.mem_map.mp hg
    have hk : ∃ d ∈ engine.sortByTimestampDesc store, d.DeviceID = row.idString := by
      obtain ⟨r, hr, hrd⟩ := (hkeys row.idString).mp (List.mem_map_of_mem _ hrow)
      exact ⟨r, (hmemstore r).mpr hr, hrd⟩
    obtain ⟨h1, h2, ⟨r, hr, hrk, hrw⟩, h4⟩ :=
      summaryOf_sorted engine (engine.sortByTimestampDesc store) row.idString hk (hsorted store)
    refine ⟨?_, h1, h2, ⟨r, (hmemstore r).mp hr, hrk, hrw⟩, ?_⟩
    · show (((engine.sortByTimestampDesc store).filter
        (fun d => d.DeviceID = row.idString)).length : Int) = _
      rw [((hperm store).filter _).length_eq]
      rfl
    · intro r' hr' hrk'
      exact h4 r' ((hmemstore r').mpr hr') hrk'

/-- With pairwise distinct timestamps the sorted order of the readings is unique. -/
theorem sortByTimestampDesc_unique {l₁ l₂ : List EnergyData} (hp : l₁.Perm l₂)
    (hnd : (l₁.map (fun r => r.Timestamp.unixNano)).Nodup)
    (h₁ : l₁.Pairwise (fun a b => b.Timestamp.unixNano ≤ a.Timestamp.unixNano))
    (h₂ : l₂.Pairwise (fun a b => b.Timestamp.unixNano ≤ a.Timestamp.unixNano)) : l₁ = l₂ := by
  have hnd₂ : (l₂.map (fun r => r.Timestamp.unixNano)).Nodup := (hp.map _).nodup_iff.mp hnd
  have strict : ∀ {l : List EnergyData}, (l.map (fun r => r.Timestamp.unixNano)).Nodup →
      l.Pairwise (fun a b => b.Timestamp.unixNano ≤ a.Timestamp.unixNano) →
      l.Pairwise (fun a b => b.Timestamp.unixNano < a.Timestamp.unixNano) := by
    intro l hn hs
    have hne : l.Pairwise (fun a b => a.Timestamp.unixNano ≠ b.Timestamp.unixNano) := by
      rw [List.Nodup, List.pairwise_map] at hn
      exact hn
    refine (hs.and hne).imp ?_
    rintro a b ⟨hle, hne'⟩
    exact lt_of_le_of_ne hle (fun e => hne' e.symm)
  haveI : IsAntisymm EnergyData (fun a b => b.Timestamp.unixNano < a.Timestamp.unixNano) :=
    ⟨fun a b hab hba => absurd hba (lt_asymm hab)⟩
  exact List.eq_of_perm_of_sorted hp (strict hnd h₁) (strict hnd₂ h₂)

/-- The pipeline reads the engine only through its sorted output and its `$avg`. -/
theorem aggregate_congr (engine engine' : Engine) (store store' : List EnergyData)
    (hdocs : engine'.sortByTimestampDesc store' = engine.sortByTimestampDesc store)
    (havg : engine'.avg = engine.avg) :
    GetGroupedDataHandler engine' store' = GetGroupedDataHandler engine store := by
  unfold GetGroupedDataHandler aggregate groupStage groupRow
  rw [hdocs, havg]

theorem sampleEngine_perm (l : List EnergyData) : (sampleEngine.sortByTimestampDesc l).Perm l :=
  List.perm_insertionSort _ l

theorem sampleEngine_sorted (l : List EnergyData) :
    (sampleEngine.sortByTimestampDesc l).Pairwise
      (fun a b => b.Timestamp.unixNano ≤ a.Timestamp.unixNano) :=
  List.sorted_insertionSort _ l

/-- C9. For every store, and every engine whose `$sort` stage returns the readings sorted by
timestamp descending, the handler returns one summary per device that has a reading, in
strictly ascending order of device id. In the summary of a device `total_wh` is the maximum
`wh` among the readings of the device (the `wh` of one of them, and no reading of the device
has a greater one), `record_count` is their number, `latest_reading` is the first and
`first_reading` the last of them in the timestamp-descending order. For any other ingestion
order `store'` of the same readings (and any other such engine) the device ids and the record
counts are the same and `total_wh` is the same number; when no two readings share a timestamp
and the engines average alike, the whole output is the same. -/
theorem GetGroupedDataHandler_summary (engine engine' : Engine) (store store' : List EnergyData)
    (hperm : ∀ l, (engine.sortByTimestampDesc l).Perm l)
    (hsorted : ∀ l, (engine.sortByTimestampDesc l).Pairwise
      (fun a b => b.Timestamp.unixNano ≤ a.Timestamp.unixNano))
    (hperm' : ∀ l, (engine'.sortByTimestampDesc l).Perm l)
    (hsorted' : ∀ l, (engine'.sortByTimestampDesc l).Pairwise
      (fun a b => b.Timestamp.unixNano ≤ a.Timestamp.unixNano))
    (hstore : store'.Perm store) :
    ∃ groups groups',
      GetGroupedDataHandler engine store = some groups ∧
      GetGroupedDataHandler engine' store' = some groups' ∧
      (groups.map (fun g => g.DeviceID)).Pairwise (· < ·) ∧
      (∀ d, d ∈ groups.map (fun g => g.DeviceID) ↔ ∃ r ∈ store, r.DeviceID = d) ∧
      (∀ g ∈ groups,
        g.RecordCount = ((store.filter (fun r => r.DeviceID = g.DeviceID)).length : Int) ∧
        ((engine.sortByTimestampDesc store).filter (fun r => r.DeviceID = g.DeviceID)).head?
          = some g.LatestReading ∧
        ((engine.sortByTimestampDesc store).filter (fun r => r.DeviceID = g.DeviceID)).getLast?
          = some g.FirstReading ∧
        (∃ r ∈ store, r.DeviceID = g.DeviceID ∧ r.Wh = g.TotalWh) ∧
        (∀ r ∈ store, r.DeviceID = g.DeviceID →
          r.Wh.key ≤ g.TotalWh.key ∧
          r.Timestamp.unixNano ≤ g.LatestReading.Timestamp.unixNano ∧
          g.FirstReading.Timestamp.unixNano ≤ r.Timestamp.unixNano)) ∧
      groups'.map (fun g => g.DeviceID) = groups.map (fun g => g.DeviceID) ∧
      (∀ g ∈ groups, ∀ g' ∈ groups', g'.DeviceID = g.DeviceID →
        g'.TotalWh.sameNumber g.TotalWh ∧ g'.RecordCount = g.RecordCount) ∧
      (engine'.avg = engine.avg → (store.map (fun r => r.Timestamp.unixNano)).Nodup →
        groups' = groups) := by
  obtain ⟨groups, hg, hasc, hmem, hchar⟩ :=
    GetGroupedDataHandler_characterised engine store hperm hsorted
  obtain ⟨groups', hg', hasc', hmem', hchar'⟩ :=
    GetGroupedDataHandler_characterised engine' store' hperm' hsorted'
  refine ⟨groups, groups', hg, hg', hasc, hmem, hchar, ?_, ?_, ?_⟩
  · haveI : IsAntisymm String (· < ·) := ⟨fun a b hab hba => absurd hba (lt_asymm hab)⟩
    refine List.eq_of_perm_of_sorted ?_ hasc' hasc
    rw [List.perm_ext_iff_of_nodup (hasc'.imp (fun h => ne_of_lt h))
      (hasc.imp (fun h => ne_of_lt h))]
    intro d
    rw [hmem, hmem']
    constructor
    · rintro ⟨r, hr, hrd⟩
      exact ⟨r, hstore.mem_iff.mp hr, hrd⟩
    · rintro ⟨r, hr, hrd⟩
      exact ⟨r, hstore.mem_iff.mpr hr, hrd⟩
  · intro g hgm g' hgm' hid
    obtain ⟨hcount, -, -, ⟨r, hr, hrd, hrw⟩, hmax⟩ := hchar g hgm
    obtain ⟨hcount', -, -, ⟨r', hr', hrd', hrw'⟩, hmax'⟩ := hchar' g' hgm'
    refine ⟨?_, ?_⟩
    · unfold Float64.sameNumber
      apply le_antisymm
      · rw [← hrw']
        exact (hmax r' (hstore.mem_iff.mp hr') (hrd'.trans hid)).1
      · rw [← hrw]
        exact (hmax' r (hstore.mem_iff.mpr hr) (hrd.trans hid.symm)).1
    · rw [hcount, hcount', hid, (hstore.filter _).length_eq]
  · intro havg hnd
    have hdocs : engine'.sortByTimestampDesc store' = engine.sortByTimestampDesc store := by
      refine sortByTimestampDesc_unique
        ((hperm' store').trans (hstore.trans (hperm store).symm)) ?_ (hsorted' store')
        (hsorted store)
      exact (((hperm' store').trans hstore).map _).nodup_iff.mpr hnd
    have h := aggregate_congr engine engine' store store' hdocs havg
    rw [hg, hg'] at h
    exact Option.some.inj h

/-- C9, example of the specification: the readings `wh = 1.0, 1.5, 1.2` of one device,
ingested in that order with increasing timestamps, give `total_wh = 1.5` (not the sum, not
the latest value) and `record_count = 3`; ingested in another order they give the same
output. -/
theorem GetGroupedDataHandler_summary_witness :
    (GetGroupedDataHandler sampleEngine
        [sampleReading 1 "esp-1" 10 ⟨0x3FF0000000000000⟩,
          sampleReading 2 "esp-1" 20 ⟨0x3FF8000000000000⟩,
          sampleReading 3 "esp-1" 30 ⟨0x3FF3333333333333⟩]).map
      (fun groups => groups.map (fun g => (g.DeviceID, g.RecordCount, g.TotalWh,
        g.LatestReading.ID, g.FirstReading.ID)))
      = some [("esp-1", 3, ⟨0x3FF8000000000000⟩, 3, 1)] ∧
    GetGroupedDataHandler sampleEngine
        [sampleReading 2 "esp-1" 20 ⟨0x3FF8000000000000⟩,
          sampleReading 3 "esp-1" 30 ⟨0x3FF3333333333333⟩,
          sampleReading 1 "esp-1" 10 ⟨0x3FF0000000000000⟩] =
      GetGroupedDataHandler sampleEngine
        [sampleReading 1 "esp-1" 10 ⟨0x3FF0000000000000⟩,
          sampleReading 2 "esp-1" 20 ⟨0x3FF8000000000000⟩,
          sampleReading 3 "esp-1" 30 ⟨0x3FF3333333333333⟩] := by
  constructor
  · simp +decide [GetGroupedDataHandler, aggregate, sortById, groupStage, groupRow, sampleEngine,
      sampleReading, List.insertionSort, List.orderedInsert, toDeviceGroup, maxDouble, maxFrom,
      sumOnes, firstRoot, lastRoot, decodeReading, assertString, assertInt32, assertFloat64,
      String.lt_iff_toList_lt]
  · obtain ⟨groups, groups', h, h', -, -, -, -, -, hsame⟩ :=
      GetGroupedDataHandler_summary sampleEngine sampleEngine
        [sampleReading 1 "esp-1" 10 ⟨0x3FF0000000000000⟩,
          sampleReading 2 "esp-1" 20 ⟨0x3FF8000000000000⟩,
          sampleReading 3 "esp-1" 30 ⟨0x3FF3333333333333⟩]
        [sampleReading 2 "esp-1" 20 ⟨0x3FF8000000000000⟩,
          sampleReading 3 "esp-1" 30 ⟨0x3FF3333333333333⟩,
          sampleReading 1 "esp-1" 10 ⟨0x3FF0000000000000⟩]
        sampleEngine_perm sampleEngine_sorted sampleEngine_perm sampleEngine_sorted
        (by decide)
    rw [h, h', hsame rfl (by decide)]

end Spectrawatt
